import Mathlib

/-!
Verification of the cross-chain send/bridge helpers of the repository.

The development shallowly embeds two layers of the source:

* `src/app/src/lib/send-helper.ts` — the send-account resolver
  (`getSendAccounts` / `getQuoteAccounts`) over an abstract world of
  on-chain accounts, and the byte-exact binary config decoders
  (`deserializeSendConfig`, `deserializeExecutorConfig`,
  `deserializeDvnConfig`).
* `src/app/src/lib/bridge.ts` — the ticket-id generation and the
  token-name/symbol truncation performed when the bridge payload is built.

Modelling decisions (each is explained at the definition it concerns):

* Solana public keys are modelled by the free inductive type `Pubkey`:
  one constructor per distinct constant program id appearing in the
  source, one constructor per distinct PDA-derivation call (the seed
  layouts in the source are pairwise distinct, so the derivations are
  injective and mutually non-colliding with overwhelming probability,
  which the free model makes exact), plus `Pubkey.ext` for externally
  supplied keys.  `DEFAULT_MESSAGE_LIB`
  (`'11111111111111111111111111111111'`, the 32-zero-byte key) and
  `SystemProgram.programId` are the same constant and share the
  constructor `Pubkey.systemProgram`.
* A fetched account (`AccountInfo`) is modelled by the images of the
  byte-level decoders that the resolver may apply to its raw data,
  together with its owner.  The byte-level decoders themselves are
  formalised separately, bit-exactly, on `List Nat` buffers.
* The RPC connection is a deterministic map `World : Pubkey → Option
  AccountInfo`; the source batches its reads but reads each key from the
  same chain state, which the deterministic map reflects.
* `console.warn` calls are modelled by a `Warn` list returned next to the
  account list (`getSendAccountsW`); the TypeScript function returns only
  the account list, which `getSendAccounts` recovers by projection.
-/

deriving instance DecidableEq for Except

namespace Zaunch

/-- Public keys, as a free model: distinct constants and distinct PDA
derivations of `send-helper.ts` get distinct constructors;
externally supplied keys are `ext n`. -/
inductive Pubkey where
  /-- An externally supplied key (payer, sender, keys stored in account data…). -/
  | ext (n : Nat)
  /-- `ENDPOINT_PROGRAM_ID`. -/
  | endpointProgram
  /-- `ULN_PROGRAM_ID`. -/
  | ulnProgram
  /-- `SIMPLE_MESSAGELIB_PROGRAM_ID`. -/
  | simpleMsglibProgram
  /-- `SystemProgram.programId` = `DEFAULT_MESSAGE_LIB` (32 zero bytes). -/
  | systemProgram
  /-- `EXECUTOR_PROGRAM_ID`. -/
  | executorProgram
  /-- PDA `['SendLibraryConfig', sender, dstEid be32]` under the endpoint program. -/
  | sendLibraryConfig (sender : Pubkey) (dstEid : Nat)
  /-- PDA `['SendLibraryConfig', dstEid be32]` under the endpoint program. -/
  | defaultSendLibraryConfig (dstEid : Nat)
  /-- PDA `['MessageLib', msgLib]` under the endpoint program. -/
  | messageLibInfo (msgLib : Pubkey)
  /-- PDA `['Nonce', sender, dstEid be32, receiver]` under the endpoint program. -/
  | nonce (sender : Pubkey) (dstEid : Nat) (receiver : List Nat)
  /-- PDA `['Endpoint']` under the endpoint program. -/
  | endpointSettings
  /-- PDA `['__event_authority']` under `program`. -/
  | eventAuthority (program : Pubkey)
  /-- PDA `['SendConfig', dstEid be32, sender]` under the ULN program. -/
  | ulnSendConfig (dstEid : Nat) (sender : Pubkey)
  /-- PDA `['SendConfig', dstEid be32]` under the ULN program. -/
  | ulnDefaultSendConfig (dstEid : Nat)
  /-- PDA `['MessageLib']` under the simple-messagelib program (`deriveSimpleMessageLib`). -/
  | simpleMsgLib
  /-- PDA `['MessageLib']` under the ULN program (`deriveUlnMessageLib` = `deriveUlnSettings`). -/
  | ulnMessageLib
  /-- PDA `['ExecutorConfig']` under the executor program (`deriveExecutorConfig`). -/
  | executorConfigPda
  deriving DecidableEq, Repr

/-- `DEFAULT_MESSAGE_LIB`, the all-zero sentinel key. -/
def DEFAULT_MESSAGE_LIB : Pubkey := Pubkey.systemProgram

/-- `AccountMeta` of `send-helper.ts`. -/
structure AccountMeta where
  pubkey : Pubkey
  isSigner : Bool
  isWritable : Bool
  deriving DecidableEq, Repr

/-- Result view of `deserializeSendConfig` (executor key and DVN key lists). -/
structure SendConfigState where
  executor : Pubkey
  requiredDvns : List Pubkey
  optionalDvns : List Pubkey
  deriving DecidableEq, Repr

/-- A fetched account, reduced to the information the resolver extracts
from it: the image of each deserializer the resolver may apply to its raw
data, plus the account's owner.  (The deserializers are total on the
buffers the resolver accepts; distinct fields are kept for the distinct
deserializers because different layouts read different bytes.) -/
structure AccountInfo where
  /-- `deserializeSendLibraryConfig data` — bytes 8..40 as a key. -/
  asLibraryPtr : Pubkey
  /-- `deserializeSendConfig data`. -/
  asSendConfig : SendConfigState
  /-- `deserializeExecutorConfig data .priceFeed`. -/
  asExecutorPriceFeed : Pubkey
  /-- `deserializeDvnConfig data .priceFeed`. -/
  asDvnPriceFeed : Pubkey
  /-- The owning program of the account. -/
  owner : Pubkey
  deriving DecidableEq, Repr

/-- The chain state visible through the RPC connection. -/
def World : Type := Pubkey → Option AccountInfo

/-- The typed errors thrown by `getSendAccounts` (each constructor is one
`throw new Error(...)` site; a key argument records exactly the account
identifiers interpolated into the thrown message). -/
inductive SendError where
  /-- `Send library config not initialized: ${...}` -/
  | sendLibConfigMissing (k : Pubkey)
  /-- `Default send library config not initialized: ${...}` -/
  | defaultSendLibConfigMissing (k : Pubkey)
  /-- `ULN send library not initialized` — note: no account in the message. -/
  | ulnMissing
  /-- `Executor not initialized: ${...}` -/
  | executorMissing (k : Pubkey)
  /-- `DVN not initialized: ${...}` -/
  | dvnMissing (k : Pubkey)
  /-- `DVN config account not found: ${...}` -/
  | dvnConfigAccountNotFound (k : Pubkey)
  deriving DecidableEq, Repr

/-- The account identifier interpolated into the thrown error message, if
any (models whether the error "names the missing account"). -/
def SendError.namedAccount : SendError → Option Pubkey
  | .sendLibConfigMissing k => some k
  | .defaultSendLibConfigMissing k => some k
  | .ulnMissing => none
  | .executorMissing k => some k
  | .dvnMissing k => some k
  | .dvnConfigAccountNotFound k => some k

/-- `console.warn` events of the resolver. -/
inductive Warn where
  /-- `Executor price feed not found: ..., using SystemProgram`. -/
  | execPriceFeedMissing (feed : Pubkey)
  /-- `DVN price feed not found: ..., using SystemProgram`. -/
  | dvnPriceFeedMissing (feed : Pubkey)
  deriving DecidableEq, Repr

/-- Parameters of `getSendAccounts` (the receiver is taken already in
byte form; the `string` branch only converts through the external
`addressToBytes32`). -/
structure SendAccountsParams where
  payer : Pubkey
  sender : Pubkey
  dstEid : Nat
  receiver : List Nat
  deriving DecidableEq, Repr

/-- Lines 442–456 of `send-helper.ts`: start from the default config and
overwrite field by field from the per-sender config when present. -/
def mergeSendConfig (dflt : SendConfigState) (ovr : Option SendConfigState) :
    SendConfigState :=
  match ovr with
  | none => dflt
  | some s =>
    { executor := if s.executor ≠ DEFAULT_MESSAGE_LIB then s.executor else dflt.executor
      requiredDvns :=
        if s.requiredDvns.length > 0 then
          s.requiredDvns.filter (fun d => decide (d ≠ DEFAULT_MESSAGE_LIB))
        else dflt.requiredDvns
      optionalDvns :=
        if s.optionalDvns.length > 0 then
          s.optionalDvns.filter (fun d => decide (d ≠ DEFAULT_MESSAGE_LIB))
        else dflt.optionalDvns }

/-- Line 393–395: the effective message library from the two fetched
library-config accounts. -/
def msgLibOf (aBuf bBuf : AccountInfo) : Pubkey :=
  if aBuf.asLibraryPtr = DEFAULT_MESSAGE_LIB then bBuf.asLibraryPtr else aBuf.asLibraryPtr

/-- Lines 411–422: the ten endpoint-level accounts. -/
def endpointAccountsOf (p : SendAccountsParams) (msgLib : Pubkey) : List AccountMeta :=
  [⟨Pubkey.endpointProgram, false, false⟩,
   ⟨p.sender, false, false⟩,
   ⟨if msgLib = Pubkey.simpleMsgLib then Pubkey.simpleMsglibProgram else Pubkey.ulnProgram,
     false, false⟩,
   ⟨Pubkey.sendLibraryConfig p.sender p.dstEid, false, false⟩,
   ⟨Pubkey.defaultSendLibraryConfig p.dstEid, false, false⟩,
   ⟨Pubkey.messageLibInfo msgLib, false, false⟩,
   ⟨Pubkey.endpointSettings, false, false⟩,
   ⟨Pubkey.nonce p.sender p.dstEid p.receiver, false, true⟩,
   ⟨Pubkey.eventAuthority Pubkey.endpointProgram, false, false⟩,
   ⟨Pubkey.endpointProgram, false, false⟩]

/-- Lines 474–483: the eight ULN path accounts. -/
def ulnAccountsOf (p : SendAccountsParams) : List AccountMeta :=
  [⟨Pubkey.ulnMessageLib, false, false⟩,
   ⟨Pubkey.ulnSendConfig p.dstEid p.sender, false, false⟩,
   ⟨Pubkey.ulnDefaultSendConfig p.dstEid, false, false⟩,
   ⟨p.payer, false, true⟩,
   ⟨Pubkey.ulnProgram, false, false⟩,
   ⟨Pubkey.systemProgram, false, false⟩,
   ⟨Pubkey.eventAuthority Pubkey.ulnProgram, false, false⟩,
   ⟨Pubkey.ulnProgram, false, false⟩]

/-- Lines 300–322, `getExecutorAccounts`: the four executor accounts; the
program id is the constant `EXECUTOR_PROGRAM_ID` and the config account is
the PDA derived by `deriveExecutorConfig`. -/
def getExecutorAccounts (priceFeedConfig priceFeedProgram : Pubkey) (payment : Bool) :
    List AccountMeta :=
  [⟨Pubkey.executorProgram, false, false⟩,
   ⟨Pubkey.executorConfigPda, false, payment⟩,
   ⟨priceFeedProgram, false, false⟩,
   ⟨priceFeedConfig, false, false⟩]

/-- Lines 528–531 / 567–568: the owner of a fetched price-feed account,
or `SystemProgram.programId` when the account does not exist. -/
def priceFeedProgramOf (w : World) (feed : Pubkey) : Pubkey :=
  match w feed with
  | some fb => fb.owner
  | none => Pubkey.systemProgram

/-- Line 533–537: the warning logged when the executor price feed is missing. -/
def execWarnsOf (w : World) (executorBuf : AccountInfo) : List Warn :=
  match w executorBuf.asExecutorPriceFeed with
  | some _ => []
  | none => [Warn.execPriceFeedMissing executorBuf.asExecutorPriceFeed]

/-- Lines 570–574: the warning logged when a DVN's price feed is missing. -/
def dvnWarnsOf (w : World) (k : Pubkey) : List Warn :=
  match w k with
  | none => []
  | some cfgBuf =>
    match w cfgBuf.asDvnPriceFeed with
    | some _ => []
    | none => [Warn.dvnPriceFeedMissing cfgBuf.asDvnPriceFeed]

/-- The four accounts pushed for one DVN key (lines 582–585), as a
function of the world; `[]` when the DVN config is absent (that case is
an error in `buildDvnAccounts` and never contributes to a success). -/
def dvnGroup (w : World) (k : Pubkey) : List AccountMeta :=
  match w k with
  | none => []
  | some cfgBuf =>
    [⟨cfgBuf.owner, false, false⟩,
     ⟨k, false, true⟩,
     ⟨priceFeedProgramOf w cfgBuf.asDvnPriceFeed, false, false⟩,
     ⟨cfgBuf.asDvnPriceFeed, false, false⟩]

/-- Lines 498–517: a batched fetch whose result is checked element by
element in order, throwing `mkErr k` at the first absent account. -/
def fetchAll (w : World) (mkErr : Pubkey → SendError) :
    List Pubkey → Except SendError (List AccountInfo)
  | [] => .ok []
  | k :: rest =>
    match w k with
    | none => .error (mkErr k)
    | some b =>
      match fetchAll w mkErr rest with
      | .error e => .error e
      | .ok bs => .ok (b :: bs)

/-- Lines 554–586: the `dvnConfigs.forEach` loop — re-fetch each DVN
config (error `dvnConfigAccountNotFound` when absent), take the DVN
program id from the account's owner, the price-feed program from the
fetched price-feed account's owner (`SystemProgram` and a warning when
missing), and push the 4-account group per DVN, in input order. -/
def buildDvnAccounts (w : World) :
    List Pubkey → Except SendError (List AccountMeta × List Warn)
  | [] => .ok ([], [])
  | k :: rest =>
    match w k with
    | none => .error (SendError.dvnConfigAccountNotFound k)
    | some cfgBuf =>
      match buildDvnAccounts w rest with
      | .error e => .error e
      | .ok (tail, tailWarns) =>
        .ok ([⟨cfgBuf.owner, false, false⟩,
              ⟨k, false, true⟩,
              ⟨priceFeedProgramOf w cfgBuf.asDvnPriceFeed, false, false⟩,
              ⟨cfgBuf.asDvnPriceFeed, false, false⟩] ++ tail,
             dvnWarnsOf w k ++ tailWarns)

/-- Lines 434–603, the ULN ("Validated") tail of `getSendAccounts`, after
the ULN settings and default send-config accounts were found: merge the
configs, require the executor config and every DVN config to exist, and
emit endpoint ++ uln ++ executor ++ dvn accounts. -/
def ulnBranch (w : World) (p : SendAccountsParams) (msgLib : Pubkey)
    (defCfgBuf : AccountInfo) : Except SendError (List AccountMeta × List Warn) :=
  let cfg := mergeSendConfig defCfgBuf.asSendConfig
    ((w (Pubkey.ulnSendConfig p.dstEid p.sender)).map (·.asSendConfig))
  let dvnsKey := cfg.requiredDvns ++ cfg.optionalDvns
  match w cfg.executor with
  | none => .error (SendError.executorMissing cfg.executor)
  | some executorBuf =>
    match fetchAll w SendError.dvnMissing dvnsKey with
    | .error e => .error e
    | .ok _dvnBufs =>
      match buildDvnAccounts w dvnsKey with
      | .error e => .error e
      | .ok (dvnAccounts, dvnWarns) =>
        .ok (endpointAccountsOf p msgLib ++ ulnAccountsOf p ++
             getExecutorAccounts executorBuf.asExecutorPriceFeed
               (priceFeedProgramOf w executorBuf.asExecutorPriceFeed) true ++
             dvnAccounts,
             execWarnsOf w executorBuf ++ dvnWarns)

/-- `getSendAccounts` (lines 332–604) with the `console.warn` events made
explicit in the result.  The source batches all its fetches; since the
world is a deterministic map, each key is simply looked up where its
value is consumed. -/
def getSendAccountsW (w : World) (p : SendAccountsParams) :
    Except SendError (List AccountMeta × List Warn) :=
  match w (Pubkey.sendLibraryConfig p.sender p.dstEid) with
  | none => .error (SendError.sendLibConfigMissing (Pubkey.sendLibraryConfig p.sender p.dstEid))
  | some aBuf =>
    match w (Pubkey.defaultSendLibraryConfig p.dstEid) with
    | none => .error (SendError.defaultSendLibConfigMissing
        (Pubkey.defaultSendLibraryConfig p.dstEid))
    | some bBuf =>
      if msgLibOf aBuf bBuf = Pubkey.simpleMsgLib then
        .ok (endpointAccountsOf p (msgLibOf aBuf bBuf) ++
             [⟨Pubkey.simpleMsgLib, false, false⟩, ⟨p.payer, false, true⟩], [])
      else
        match w Pubkey.ulnMessageLib with
        | none => .error SendError.ulnMissing
        | some _ulnBuf =>
          match w (Pubkey.ulnDefaultSendConfig p.dstEid) with
          | none => .error SendError.ulnMissing
          | some defCfgBuf => ulnBranch w p (msgLibOf aBuf bBuf) defCfgBuf

/-- `getSendAccounts` as the TypeScript function returns it: the account
list alone. -/
def getSendAccounts (w : World) (p : SendAccountsParams) :
    Except SendError (List AccountMeta) :=
  (getSendAccountsW w p).map Prod.fst

/-- `getQuoteAccounts` (lines 606–615): run `getSendAccounts` and clear
every `isWritable` flag. -/
def getQuoteAccounts (w : World) (p : SendAccountsParams) :
    Except SendError (List AccountMeta) :=
  (getSendAccounts w p).map
    (List.map (fun a => ⟨a.pubkey, a.isSigner, false⟩))

/-- The effective message library of a resolution (lines 389–395), when
both library-config accounts exist. -/
def effectiveMsgLib (w : World) (p : SendAccountsParams) : Option Pubkey :=
  match w (Pubkey.sendLibraryConfig p.sender p.dstEid) with
  | none => none
  | some aBuf =>
    match w (Pubkey.defaultSendLibraryConfig p.dstEid) with
    | none => none
    | some bBuf => some (msgLibOf aBuf bBuf)

/-- The merged send configuration a Validated-path resolution uses
(lines 434–456), when the ULN accounts it is read from exist. -/
def ulnPathConfig (w : World) (p : SendAccountsParams) : Option SendConfigState :=
  match w Pubkey.ulnMessageLib with
  | none => none
  | some _ =>
    match w (Pubkey.ulnDefaultSendConfig p.dstEid) with
    | none => none
    | some defCfgBuf =>
      some (mergeSendConfig defCfgBuf.asSendConfig
        ((w (Pubkey.ulnSendConfig p.dstEid p.sender)).map (·.asSendConfig)))

/-!
Byte-exact model of the binary config decoders.  Buffers are `List Nat`
(one entry per byte).  The TypeScript decoders have no dedicated error
type: they throw whatever the runtime throws.  `DecodeErr` therefore has
one constructor per runtime error the code can actually raise, plus the
two error values posited by the specification (never produced by this
code) so that statements about them can be made.
-/

/-- Errors of the byte decoders. -/
inductive DecodeErr where
  /-- Node `Buffer.readUInt8` / `readUInt32LE` past the end (`ERR_OUT_OF_RANGE`). -/
  | rangeError
  /-- `new PublicKey(bytes)` with a numeric value wider than 32 bytes
  (`Invalid public key input`); never reached by these decoders, whose
  slices are at most 32 bytes. -/
  | invalidPubkey
  /-- Posited by the specification; never produced by this code. -/
  | truncated
  /-- Posited by the specification; never produced by this code. -/
  | arrayOverrun
  deriving DecidableEq, Repr

/-- Byte access (total; only used under an in-bounds check, as Node
checks bounds before reading). -/
def byteAt (data : List Nat) (off : Nat) : Nat := (data[off]?).getD 0

/-- `Buffer.readUInt8(off)`: bounds check, then the byte. -/
def readUInt8 (data : List Nat) (off : Nat) : Except DecodeErr Nat :=
  if off < data.length then .ok (byteAt data off) else .error DecodeErr.rangeError

/-- `Buffer.readUInt32LE(off)`: bounds check, then the 4 bytes little-endian. -/
def readUInt32LE (data : List Nat) (off : Nat) : Except DecodeErr Nat :=
  if off + 4 ≤ data.length then
    .ok (byteAt data off + 256 * byteAt data (off + 1) +
         65536 * byteAt data (off + 2) + 16777216 * byteAt data (off + 3))
  else .error DecodeErr.rangeError

/-- `Buffer.slice(start, stop)` — clamping, never throwing. -/
def bslice (data : List Nat) (start stop : Nat) : List Nat :=
  (data.take stop).drop start

/-- `new PublicKey(bytes)` as web3.js 1.x implements it for byte input:
the bytes are read as a big-endian number (`new BN(value)`) and only a
numeric value wider than 32 bytes is rejected (`this._bn.byteLength() >
32`); shorter buffers — including the empty one — are accepted and
zero-extended.  The key is represented canonically by its 32-byte
big-endian form, i.e. the buffer with its leading zero bytes replaced by
a zero pad to length 32. -/
def newPublicKey (b : List Nat) : Except DecodeErr (List Nat) :=
  let stripped := b.dropWhile (· == 0)
  if stripped.length ≤ 32 then
    .ok (List.replicate (32 - stripped.length) 0 ++ stripped)
  else .error DecodeErr.invalidPubkey

/-- The `for` loops of `deserializeSendConfig`: read `count` 32-byte keys
starting at `off`. -/
def readPubkeys (data : List Nat) : Nat → Nat → Except DecodeErr (List (List Nat))
  | _off, 0 => .ok []
  | off, n + 1 =>
    match newPublicKey (bslice data off (off + 32)) with
    | .error e => .error e
    | .ok k =>
      match readPubkeys data (off + 32) n with
      | .error e => .error e
      | .ok rest => .ok (k :: rest)

/-- Result record of `deserializeSendConfig`. -/
structure UlnSendConfigRec where
  executor : List Nat
  requiredDvns : List (List Nat)
  optionalDvns : List (List Nat)
  deriving DecidableEq, Repr

/-- `deserializeSendConfig` (lines 143–182).  Layout walked by the code:
discriminator 8, bump 1, confirmations 8 (skipped), requiredDvnCount u8 at
17 (read, value unused), optionalDvnCount u8 at 18 (read, value unused),
optionalDvnThreshold at 19 (skipped), u32 LE required-array length at 20,
that many 32-byte keys, u32 LE optional-array length, that many keys,
maxMessageSize 4 bytes (skipped), executor 32 bytes. -/
def deserializeSendConfig (data : List Nat) : Except DecodeErr UlnSendConfigRec :=
  match readUInt8 data 17 with
  | .error e => .error e
  | .ok _requiredDvnCount =>
  match readUInt8 data 18 with
  | .error e => .error e
  | .ok _optionalDvnCount =>
  match readUInt32LE data 20 with
  | .error e => .error e
  | .ok reqLen =>
  match readPubkeys data 24 reqLen with
  | .error e => .error e
  | .ok requiredDvns =>
  match readUInt32LE data (24 + 32 * reqLen) with
  | .error e => .error e
  | .ok optLen =>
  match readPubkeys data (24 + 32 * reqLen + 4) optLen with
  | .error e => .error e
  | .ok optionalDvns =>
  match newPublicKey (bslice data (24 + 32 * reqLen + 4 + 32 * optLen + 4)
      (24 + 32 * reqLen + 4 + 32 * optLen + 4 + 32)) with
  | .error e => .error e
  | .ok executor => .ok ⟨executor, requiredDvns, optionalDvns⟩

/-- `deserializeExecutorConfig` (lines 198–226).  Layout: discriminator 8,
bump 1, owner 32 (all skipped), then five u32-length-prefixed arrays whose
bodies are skipped by offset arithmetic (allow list, deny list, admins,
executors, msglibs, 32-byte elements each), paused 1 and
defaultMultiplierBps 2 (skipped), then the 32-byte price feed. -/
def deserializeExecutorConfig (data : List Nat) : Except DecodeErr (List Nat) :=
  match readUInt32LE data 41 with
  | .error e => .error e
  | .ok allowLen =>
  match readUInt32LE data (45 + 32 * allowLen) with
  | .error e => .error e
  | .ok denyLen =>
  match readUInt32LE data (49 + 32 * allowLen + 32 * denyLen) with
  | .error e => .error e
  | .ok adminsLen =>
  match readUInt32LE data (53 + 32 * allowLen + 32 * denyLen + 32 * adminsLen) with
  | .error e => .error e
  | .ok executorsLen =>
  match readUInt32LE data
      (57 + 32 * allowLen + 32 * denyLen + 32 * adminsLen + 32 * executorsLen) with
  | .error e => .error e
  | .ok msglibsLen =>
  newPublicKey (bslice data
    (64 + 32 * allowLen + 32 * denyLen + 32 * adminsLen + 32 * executorsLen + 32 * msglibsLen)
    (96 + 32 * allowLen + 32 * denyLen + 32 * adminsLen + 32 * executorsLen + 32 * msglibsLen))

/-- `deserializeDvnConfig` (lines 245–274).  Layout: discriminator 8,
vid 4, bump 1 (skipped), u32-length-prefixed signers array (64-byte
elements, skipped), quorum 1 (skipped), allow list and deny list (u32
prefix, 32-byte elements, skipped), paused 1 (skipped), msglibs and
admins (u32 prefix, 32-byte elements, skipped), 32-byte price feed. -/
def deserializeDvnConfig (data : List Nat) : Except DecodeErr (List Nat) :=
  match readUInt32LE data 13 with
  | .error e => .error e
  | .ok signersLen =>
  match readUInt32LE data (18 + 64 * signersLen) with
  | .error e => .error e
  | .ok allowLen =>
  match readUInt32LE data (22 + 64 * signersLen + 32 * allowLen) with
  | .error e => .error e
  | .ok denyLen =>
  match readUInt32LE data (27 + 64 * signersLen + 32 * allowLen + 32 * denyLen) with
  | .error e => .error e
  | .ok msglibsLen =>
  match readUInt32LE data
      (31 + 64 * signersLen + 32 * allowLen + 32 * denyLen + 32 * msglibsLen) with
  | .error e => .error e
  | .ok adminsLen =>
  newPublicKey (bslice data
    (35 + 64 * signersLen + 32 * allowLen + 32 * denyLen + 32 * msglibsLen + 32 * adminsLen)
    (67 + 64 * signersLen + 32 * allowLen + 32 * denyLen + 32 * msglibsLen + 32 * adminsLen))

/-!
Bridge-orchestrator fragments (`bridge.ts`).
-/

/-- Lines 345/517/680 of `bridge.ts`:
`new BN(Math.floor(Math.random() * 1000000000))`.  The double returned by
`Math.random()` is modelled as a rational in `[0, 1)`; the conclusions
drawn below (the id is a nonnegative integer strictly below `10^9`) also
hold under IEEE-754 round-to-nearest, since the product of any double
below `1` with `10^9` rounds to a value at most `10^9 - ulp`. -/
def ticketIdOf (randUnit : ℚ) : ℤ := ⌊randUnit * 1000000000⌋

/-- UTF-8 byte length of a single UTF-16 code unit outside a surrogate
pair (a lone surrogate is replaced by U+FFFD, 3 bytes, as Node does). -/
def utf8UnitLen (u : Nat) : Nat :=
  if u < 128 then 1 else if u < 2048 then 2 else 3

/-- UTF-8 byte length of a JavaScript string, given as its UTF-16 code
units: a high surrogate followed by a low surrogate encodes as 4 bytes;
everything else unit by unit. -/
def utf8Len : List Nat → Nat
  | [] => 0
  | [u] => utf8UnitLen u
  | u :: v :: rest =>
    if 55296 ≤ u ∧ u < 56320 ∧ 56320 ≤ v ∧ v < 57344 then 4 + utf8Len rest
    else utf8UnitLen u + utf8Len (v :: rest)

/-- `String.prototype.slice(0, n)` — truncation by UTF-16 code units. -/
def jsSliceUnits (s : List Nat) (n : Nat) : List Nat := s.take n

/-- `token_name: tokenMetadata.name.slice(0, 32)` (bridge.ts lines 425/593/778). -/
def bridgeTokenName (name : List Nat) : List Nat := jsSliceUnits name 32

/-- `token_symbol: tokenMetadata.symbol.slice(0, 8)` (bridge.ts lines 426/594/779). -/
def bridgeTokenSymbol (symbol : List Nat) : List Nat := jsSliceUnits symbol 8

/-!
Spec-side helpers and concrete worlds used in the theorems below.
-/

/-- Ordered concatenation of the images of `f` (used to state the
append-only group structure of the account list). -/
def concatMap {α β : Type} (f : α → List β) : List α → List β
  | [] => []
  | a :: l => f a ++ concatMap f l

/-- Builder for concrete `AccountInfo` values. -/
def mkInfo (libPtr : Pubkey) (cfg : SendConfigState) (execFeed dvnFeed owner : Pubkey) :
    AccountInfo :=
  ⟨libPtr, cfg, execFeed, dvnFeed, owner⟩

/-- Concrete parameters used by the witnesses. -/
def p0 : SendAccountsParams := ⟨Pubkey.ext 0, Pubkey.ext 1, 7, [2]⟩

/-- The library-config account of `wOk` / `wNoUln` / `wFeedless` at the
per-sender key. -/
def aBufOk : AccountInfo :=
  mkInfo (Pubkey.ext 50) ⟨Pubkey.ext 0, [], []⟩ (Pubkey.ext 0) (Pubkey.ext 0)
    Pubkey.endpointProgram

/-- The library-config account of `wOk` at the destination-default key. -/
def bBufOk : AccountInfo :=
  mkInfo (Pubkey.ext 51) ⟨Pubkey.ext 0, [], []⟩ (Pubkey.ext 0) (Pubkey.ext 0)
    Pubkey.endpointProgram

/-- The ULN settings account of `wOk`. -/
def ulnBufOk : AccountInfo :=
  mkInfo (Pubkey.ext 0) ⟨Pubkey.ext 0, [], []⟩ (Pubkey.ext 0) (Pubkey.ext 0) Pubkey.ulnProgram

/-- The destination-default send-config account of `wOk`. -/
def defCfgBufOk : AccountInfo :=
  mkInfo (Pubkey.ext 0) ⟨Pubkey.ext 10, [Pubkey.ext 20], [Pubkey.ext 21]⟩
    (Pubkey.ext 0) (Pubkey.ext 0) Pubkey.ulnProgram

/-- The executor-config account of `wOk` (at key `ext 10`): owned by
`ext 77`, price feed `ext 30`. -/
def execBufOk : AccountInfo :=
  mkInfo (Pubkey.ext 0) ⟨Pubkey.ext 0, [], []⟩ (Pubkey.ext 30) (Pubkey.ext 0) (Pubkey.ext 77)

/-- The per-sender library-config account of `wDirect`: sentinel pointer. -/
def aBufDirect : AccountInfo :=
  mkInfo Pubkey.systemProgram ⟨Pubkey.ext 0, [], []⟩ (Pubkey.ext 0) (Pubkey.ext 0)
    Pubkey.endpointProgram

/-- The destination-default library-config account of `wDirect`: points at
the simple message lib. -/
def bBufDirect : AccountInfo :=
  mkInfo Pubkey.simpleMsgLib ⟨Pubkey.ext 0, [], []⟩ (Pubkey.ext 0) (Pubkey.ext 0)
    Pubkey.endpointProgram

/-- A complete Validated-path world: per-sender library pointer `ext 50`
(not the sentinel, not the simple message lib), default send config with
executor `ext 10`, one required DVN `ext 20` and one optional DVN
`ext 21`, a per-sender send config that overrides nothing (sentinel
executor, empty arrays), and all config accounts present.  The price feed
of the optional DVN (`ext 32`) is absent. -/
def wOk : World := fun k =>
  if k = Pubkey.sendLibraryConfig (Pubkey.ext 1) 7 then some aBufOk
  else if k = Pubkey.defaultSendLibraryConfig 7 then some bBufOk
  else if k = Pubkey.ulnMessageLib then some ulnBufOk
  else if k = Pubkey.ulnDefaultSendConfig 7 then some defCfgBufOk
  else if k = Pubkey.ulnSendConfig 7 (Pubkey.ext 1) then
    some (mkInfo (Pubkey.ext 0) ⟨Pubkey.systemProgram, [], []⟩ (Pubkey.ext 0) (Pubkey.ext 0) Pubkey.ulnProgram)
  else if k = Pubkey.ext 10 then some execBufOk
  else if k = Pubkey.ext 20 then
    some (mkInfo (Pubkey.ext 0) ⟨Pubkey.ext 0, [], []⟩ (Pubkey.ext 0) (Pubkey.ext 31) (Pubkey.ext 78))
  else if k = Pubkey.ext 21 then
    some (mkInfo (Pubkey.ext 0) ⟨Pubkey.ext 0, [], []⟩ (Pubkey.ext 0) (Pubkey.ext 32) (Pubkey.ext 79))
  else if k = Pubkey.ext 30 then
    some (mkInfo (Pubkey.ext 0) ⟨Pubkey.ext 0, [], []⟩ (Pubkey.ext 0) (Pubkey.ext 0) (Pubkey.ext 90))
  else if k = Pubkey.ext 31 then
    some (mkInfo (Pubkey.ext 0) ⟨Pubkey.ext 0, [], []⟩ (Pubkey.ext 0) (Pubkey.ext 0) (Pubkey.ext 91))
  else none

/-- The merged send configuration of `wOk` (override is all sentinel, so
the default survives). -/
def wOkCfg : SendConfigState := ⟨Pubkey.ext 10, [Pubkey.ext 20], [Pubkey.ext 21]⟩

/-- The full account list `getSendAccounts wOk p0` produces. -/
def wOkAccounts : List AccountMeta :=
  [⟨Pubkey.endpointProgram, false, false⟩,
   ⟨Pubkey.ext 1, false, false⟩,
   ⟨Pubkey.ulnProgram, false, false⟩,
   ⟨Pubkey.sendLibraryConfig (Pubkey.ext 1) 7, false, false⟩,
   ⟨Pubkey.defaultSendLibraryConfig 7, false, false⟩,
   ⟨Pubkey.messageLibInfo (Pubkey.ext 50), false, false⟩,
   ⟨Pubkey.endpointSettings, false, false⟩,
   ⟨Pubkey.nonce (Pubkey.ext 1) 7 [2], false, true⟩,
   ⟨Pubkey.eventAuthority Pubkey.endpointProgram, false, false⟩,
   ⟨Pubkey.endpointProgram, false, false⟩,
   ⟨Pubkey.ulnMessageLib, false, false⟩,
   ⟨Pubkey.ulnSendConfig 7 (Pubkey.ext 1), false, false⟩,
   ⟨Pubkey.ulnDefaultSendConfig 7, false, false⟩,
   ⟨Pubkey.ext 0, false, true⟩,
   ⟨Pubkey.ulnProgram, false, false⟩,
   ⟨Pubkey.systemProgram, false, false⟩,
   ⟨Pubkey.eventAuthority Pubkey.ulnProgram, false, false⟩,
   ⟨Pubkey.ulnProgram, false, false⟩,
   ⟨Pubkey.executorProgram, false, false⟩,
   ⟨Pubkey.executorConfigPda, false, true⟩,
   ⟨Pubkey.ext 90, false, false⟩,
   ⟨Pubkey.ext 30, false, false⟩,
   ⟨Pubkey.ext 78, false, false⟩,
   ⟨Pubkey.ext 20, false, true⟩,
   ⟨Pubkey.ext 91, false, false⟩,
   ⟨Pubkey.ext 31, false, false⟩,
   ⟨Pubkey.ext 79, false, false⟩,
   ⟨Pubkey.ext 21, false, true⟩,
   ⟨Pubkey.systemProgram, false, false⟩,
   ⟨Pubkey.ext 32, false, false⟩]

/-- A Direct-path world: the per-sender pointer is the sentinel and the
destination default points at the simple message lib. -/
def wDirect : World := fun k =>
  if k = Pubkey.sendLibraryConfig (Pubkey.ext 1) 7 then
    some (mkInfo Pubkey.systemProgram ⟨Pubkey.ext 0, [], []⟩ (Pubkey.ext 0) (Pubkey.ext 0) Pubkey.endpointProgram)
  else if k = Pubkey.defaultSendLibraryConfig 7 then
    some (mkInfo Pubkey.simpleMsgLib ⟨Pubkey.ext 0, [], []⟩ (Pubkey.ext 0) (Pubkey.ext 0) Pubkey.endpointProgram)
  else none

/-- A Validated-path world in which the ULN message-library settings
account is absent. -/
def wNoUln : World := fun k =>
  if k = Pubkey.sendLibraryConfig (Pubkey.ext 1) 7 then
    some (mkInfo (Pubkey.ext 50) ⟨Pubkey.ext 0, [], []⟩ (Pubkey.ext 0) (Pubkey.ext 0) Pubkey.endpointProgram)
  else if k = Pubkey.defaultSendLibraryConfig 7 then
    some (mkInfo (Pubkey.ext 51) ⟨Pubkey.ext 0, [], []⟩ (Pubkey.ext 0) (Pubkey.ext 0) Pubkey.endpointProgram)
  else none

/-- `wOk` with the executor's price-feed account (`ext 30`) removed. -/
def wFeedless : World := fun k =>
  if k = Pubkey.ext 30 then none else wOk k

/-- The Send Configuration buffer of the spec's decode scenario, laid out
exactly as the scenario lists it (no array-length prefixes):
discriminator (8 zero bytes), bump `0x01`, confirmations `10` as 8-byte
LE, requiredCount `1`, optionalCount `0`, threshold `0`, one 32-byte
required-validator identifier (all bytes `0x01`), maxMessageSize `10000`
as 4 bytes LE, relayer 32 bytes of `0xAA`. -/
def c7ScenarioBuf : List Nat :=
  List.replicate 8 0 ++ [1] ++ [10, 0, 0, 0, 0, 0, 0, 0] ++ [1, 0, 0] ++
  List.replicate 32 1 ++ [16, 39, 0, 0] ++ List.replicate 32 170

/-- Fixed-field head of the scenario buffer once the two 4-byte LE
array-length prefixes the decoder reads are inserted: discriminator,
bump, confirmations, requiredCount `1`, optionalCount `0`, threshold `0`,
required-array length prefix `1` (u32 LE).  24 bytes. -/
def c7Head : List Nat :=
  List.replicate 8 0 ++ [1] ++ [10, 0, 0, 0, 0, 0, 0, 0] ++ [1, 0, 0] ++ [1, 0, 0, 0]

/-- Middle of the prefixed scenario buffer, between the required
validator and the relayer: optional-array length prefix `0` (u32 LE) and
maxMessageSize `10000` (u32 LE).  8 bytes. -/
def c7Mid : List Nat := [0, 0, 0, 0] ++ [16, 39, 0, 0]

/-- The relayer of the scenario: 32 bytes of `0xAA`. -/
def c7Relayer : List Nat := List.replicate 32 170

/-- The scenario buffer amended with the two array-length prefixes, for a
given 32-byte required-validator identifier `V`. -/
def c7AmendedBuf (V : List Nat) : List Nat := c7Head ++ V ++ (c7Mid ++ c7Relayer)

/-- The 12-entry Direct-path account list of `wDirect` and `p0`. -/
def wDirectAccounts : List AccountMeta :=
  [⟨Pubkey.endpointProgram, false, false⟩,
   ⟨Pubkey.ext 1, false, false⟩,
   ⟨Pubkey.simpleMsglibProgram, false, false⟩,
   ⟨Pubkey.sendLibraryConfig (Pubkey.ext 1) 7, false, false⟩,
   ⟨Pubkey.defaultSendLibraryConfig 7, false, false⟩,
   ⟨Pubkey.messageLibInfo Pubkey.simpleMsgLib, false, false⟩,
   ⟨Pubkey.endpointSettings, false, false⟩,
   ⟨Pubkey.nonce (Pubkey.ext 1) 7 [2], false, true⟩,
   ⟨Pubkey.eventAuthority Pubkey.endpointProgram, false, false⟩,
   ⟨Pubkey.endpointProgram, false, false⟩,
   ⟨Pubkey.simpleMsgLib, false, false⟩,
   ⟨Pubkey.ext 0, false, true⟩]

/-!
Helper lemmas.
-/

theorem concatMap_append {α β : Type} (f : α → List β) (l₁ l₂ : List α) :
    concatMap f (l₁ ++ l₂) = concatMap f l₁ ++ concatMap f l₂ := by
  induction l₁ with
  | nil => simp [concatMap]
  | cons a l ih => simp [concatMap, ih]

theorem concatMap_length_uniform {α β : Type} (f : α → List β) (n : Nat) :
    ∀ l : List α, (∀ a ∈ l, (f a).length = n) →
      (concatMap f l).length = n * l.length := by
  intro l
  induction l with
  | nil => intro _; simp [concatMap]
  | cons a l ih =>
    intro h
    have ha := h a (List.mem_cons_self a l)
    have hl := ih (fun b hb => h b (List.mem_cons_of_mem a hb))
    simp [concatMap, ha, hl, Nat.mul_succ, Nat.add_comm]

theorem mem_concatMap {α β : Type} (f : α → List β) {a : α} {b : β} :
    ∀ l : List α, a ∈ l → b ∈ f a → b ∈ concatMap f l := by
  intro l
  induction l with
  | nil => intro h; cases h
  | cons c l ih =>
    intro hmem hb
    rcases List.mem_cons.1 hmem with h | h
    · subst h; exact List.mem_append_left _ hb
    · exact List.mem_append_right _ (ih h hb)

theorem bslice_length (data : List Nat) (s t : Nat) :
    (bslice data s t).length = min t data.length - s := by
  simp [bslice]

theorem drop_take_append {α : Type} (pre rest : List α) (n : Nat) :
    ((pre ++ rest).take (pre.length + n)).drop pre.length = rest.take n := by
  induction pre with
  | nil => simp
  | cons a l ih => simpa [List.cons_append, Nat.succ_add] using ih

theorem bslice_mid (pre mid post : List Nat) :
    bslice (pre ++ (mid ++ post)) pre.length (pre.length + mid.length) = mid := by
  unfold bslice
  rw [drop_take_append pre (mid ++ post) mid.length]
  exact List.take_left mid post

theorem byteAt_append_left (l₁ l₂ : List Nat) (n : Nat) (h : n < l₁.length) :
    byteAt (l₁ ++ l₂) n = byteAt l₁ n := by
  simp [byteAt, List.getElem?_append_left h]

theorem byteAt_append_right (l₁ l₂ : List Nat) (n : Nat) (h : l₁.length ≤ n) :
    byteAt (l₁ ++ l₂) n = byteAt l₂ (n - l₁.length) := by
  simp [byteAt, List.getElem?_append_right h]

theorem newPublicKey_ok_of_le (b : List Nat) (h : b.length ≤ 32) :
    ∃ k, newPublicKey b = .ok k := by
  unfold newPublicKey
  have hsub : (b.dropWhile (· == 0)).length ≤ b.length :=
    (List.dropWhile_sublist (· == 0)).length_le
  rw [if_pos (by omega)]
  exact ⟨_, rfl⟩

theorem newPublicKey_exact (b : List Nat) (h : b.length = 32) :
    newPublicKey b = .ok b := by
  unfold newPublicKey
  have hsub : (b.dropWhile (· == 0)).length ≤ b.length :=
    (List.dropWhile_sublist (· == 0)).length_le
  rw [if_pos (by omega)]
  congr 1
  have hsplit := List.takeWhile_append_dropWhile (· == 0) (l := b)
  have htw : b.takeWhile (· == 0) = List.replicate (b.takeWhile (· == 0)).length 0 := by
    apply List.eq_replicate_of_mem
    intro x hx
    simpa using List.mem_takeWhile_imp hx
  have hlen2 : (b.takeWhile (· == 0)).length + (b.dropWhile (· == 0)).length = 32 := by
    rw [← h, ← List.length_append, hsplit]
  calc
    List.replicate (32 - (b.dropWhile (· == 0)).length) 0 ++ b.dropWhile (· == 0)
        = List.replicate (b.takeWhile (· == 0)).length 0 ++ b.dropWhile (· == 0) := by
          have : 32 - (b.dropWhile (· == 0)).length = (b.takeWhile (· == 0)).length := by
            omega
          rw [this]
    _ = b.takeWhile (· == 0) ++ b.dropWhile (· == 0) := by rw [← htw]
    _ = b := hsplit

theorem newPublicKey_bslice_le (data : List Nat) (s t : Nat) (h : t ≤ s + 32) :
    ∃ k, newPublicKey (bslice data s t) = .ok k := by
  apply newPublicKey_ok_of_le
  rw [bslice_length]
  omega

theorem readPubkeys_total (data : List Nat) :
    ∀ (count off : Nat), ∃ ks, readPubkeys data off count = .ok ks := by
  intro count
  induction count with
  | zero => intro off; exact ⟨[], rfl⟩
  | succ n ih =>
    intro off
    obtain ⟨k, hk⟩ := newPublicKey_bslice_le data off (off + 32) (by omega)
    obtain ⟨ks, hks⟩ := ih (off + 32)
    refine ⟨k :: ks, ?_⟩
    simp only [readPubkeys, hk, hks]

theorem deserializeSendConfig_required_overrun (data : List Nat) (reqLen : Nat)
    (hread : readUInt32LE data 20 = .ok reqLen)
    (hlen : data.length < 24 + 32 * reqLen + 4) :
    deserializeSendConfig data = .error DecodeErr.rangeError := by
  have hlen24 : 24 ≤ data.length := by
    by_contra h'
    unfold readUInt32LE at hread
    rw [if_neg (by omega)] at hread
    cases hread
  have e17 : readUInt8 data 17 = .ok (byteAt data 17) := by
    unfold readUInt8; rw [if_pos (by omega)]
  have e18 : readUInt8 data 18 = .ok (byteAt data 18) := by
    unfold readUInt8; rw [if_pos (by omega)]
  obtain ⟨ks, hkeys⟩ := readPubkeys_total data reqLen 24
  have hopt : readUInt32LE data (24 + 32 * reqLen) = .error DecodeErr.rangeError := by
    unfold readUInt32LE; rw [if_neg (by omega)]
  simp only [deserializeSendConfig, e17, e18, hread, hkeys, hopt]

theorem dvnGroup_length_of_isSome (w : World) (k : Pubkey) (h : (w k).isSome) :
    (dvnGroup w k).length = 4 := by
  unfold dvnGroup
  cases hk : w k with
  | none => rw [hk] at h; cases h
  | some cfgBuf => rfl

theorem fetchAll_total (w : World) (mkErr : Pubkey → SendError) :
    ∀ l : List Pubkey, (∀ k ∈ l, (w k).isSome) →
      ∃ bufs, fetchAll w mkErr l = .ok bufs := by
  intro l
  induction l with
  | nil => intro _; exact ⟨[], rfl⟩
  | cons k rest ih =>
    intro h
    have hk := h k (List.mem_cons_self k rest)
    cases hwk : w k with
    | none => rw [hwk] at hk; cases hk
    | some b =>
      obtain ⟨bufs, hbufs⟩ := ih (fun d hd => h d (List.mem_cons_of_mem k hd))
      exact ⟨b :: bufs, by simp [fetchAll, hwk, hbufs]⟩

theorem fetchAll_error_at (w : World) (mkErr : Pubkey → SendError) (k : Pubkey)
    (hk : w k = none) :
    ∀ (done rest : List Pubkey), (∀ d ∈ done, (w d).isSome) →
      fetchAll w mkErr (done ++ k :: rest) = .error (mkErr k) := by
  intro done
  induction done with
  | nil => intro rest _; simp [fetchAll, hk]
  | cons d done' ih =>
    intro rest h
    have hd := h d (List.mem_cons_self d done')
    cases hwd : w d with
    | none => rw [hwd] at hd; cases hd
    | some b =>
      have := ih rest (fun x hx => h x (List.mem_cons_of_mem d hx))
      simp [fetchAll, hwd, this]

theorem buildDvnAccounts_ok (w : World) :
    ∀ (l : List Pubkey) (accs : List AccountMeta) (warns : List Warn),
      buildDvnAccounts w l = .ok (accs, warns) →
      accs = concatMap (dvnGroup w) l ∧ warns = concatMap (dvnWarnsOf w) l ∧
        ∀ k ∈ l, (w k).isSome := by
  intro l
  induction l with
  | nil =>
    intro accs warns h
    simp only [buildDvnAccounts] at h
    injection h with h'
    injection h' with h1 h2
    subst h1; subst h2
    exact ⟨rfl, rfl, by intro k hk; cases hk⟩
  | cons k rest ih =>
    intro accs warns h
    simp only [buildDvnAccounts] at h
    cases hk : w k with
    | none => rw [hk] at h; cases h
    | some cfgBuf =>
      rw [hk] at h
      cases hr : buildDvnAccounts w rest with
      | error e => rw [hr] at h; cases h
      | ok tw =>
        obtain ⟨tail, tailWarns⟩ := tw
        rw [hr] at h
        injection h with h'
        injection h' with h1 h2
        obtain ⟨ht, hw, hs⟩ := ih tail tailWarns hr
        refine ⟨?_, ?_, ?_⟩
        · rw [← h1, ht]; simp [concatMap, dvnGroup, hk]
        · rw [← h2, hw]; simp [concatMap]
        · intro d hd
          rcases List.mem_cons.1 hd with hdk | hdk
          · subst hdk; simp [hk]
          · exact hs d hdk

theorem buildDvnAccounts_total (w : World) :
    ∀ l : List Pubkey, (∀ k ∈ l, (w k).isSome) →
      buildDvnAccounts w l = .ok (concatMap (dvnGroup w) l, concatMap (dvnWarnsOf w) l) := by
  intro l
  induction l with
  | nil => intro _; rfl
  | cons k rest ih =>
    intro h
    have hk := h k (List.mem_cons_self k rest)
    cases hwk : w k with
    | none => rw [hwk] at hk; cases hk
    | some cfgBuf =>
      have hr := ih (fun d hd => h d (List.mem_cons_of_mem k hd))
      simp [buildDvnAccounts, hwk, hr, concatMap, dvnGroup]

theorem getSendAccountsW_direct (w : World) (p : SendAccountsParams)
    (aBuf bBuf : AccountInfo)
    (hA : w (Pubkey.sendLibraryConfig p.sender p.dstEid) = some aBuf)
    (hB : w (Pubkey.defaultSendLibraryConfig p.dstEid) = some bBuf)
    (heq : msgLibOf aBuf bBuf = Pubkey.simpleMsgLib) :
    getSendAccountsW w p = .ok (endpointAccountsOf p (msgLibOf aBuf bBuf) ++
      [⟨Pubkey.simpleMsgLib, false, false⟩, ⟨p.payer, false, true⟩], []) := by
  simp only [getSendAccountsW, hA, hB, if_pos heq]

theorem getSendAccountsW_uln (w : World) (p : SendAccountsParams)
    (aBuf bBuf ulnBuf defCfgBuf : AccountInfo)
    (hA : w (Pubkey.sendLibraryConfig p.sender p.dstEid) = some aBuf)
    (hB : w (Pubkey.defaultSendLibraryConfig p.dstEid) = some bBuf)
    (hne : msgLibOf aBuf bBuf ≠ Pubkey.simpleMsgLib)
    (hU : w Pubkey.ulnMessageLib = some ulnBuf)
    (hD : w (Pubkey.ulnDefaultSendConfig p.dstEid) = some defCfgBuf) :
    getSendAccountsW w p = ulnBranch w p (msgLibOf aBuf bBuf) defCfgBuf := by
  simp only [getSendAccountsW, hA, hB, if_neg hne, hU, hD]

theorem ulnBranch_ok (w : World) (p : SendAccountsParams) (msgLib : Pubkey)
    (defCfgBuf : AccountInfo) (cfg : SendConfigState)
    (accs : List AccountMeta) (warns : List Warn)
    (hcfg : cfg = mergeSendConfig defCfgBuf.asSendConfig
      ((w (Pubkey.ulnSendConfig p.dstEid p.sender)).map (·.asSendConfig)))
    (h : ulnBranch w p msgLib defCfgBuf = .ok (accs, warns)) :
    ∃ executorBuf dvnAccs dvnWarns,
      w cfg.executor = some executorBuf ∧
      buildDvnAccounts w (cfg.requiredDvns ++ cfg.optionalDvns) = .ok (dvnAccs, dvnWarns) ∧
      accs = endpointAccountsOf p msgLib ++ ulnAccountsOf p ++
        getExecutorAccounts executorBuf.asExecutorPriceFeed
          (priceFeedProgramOf w executorBuf.asExecutorPriceFeed) true ++ dvnAccs ∧
      warns = execWarnsOf w executorBuf ++ dvnWarns := by
  subst hcfg
  simp only [ulnBranch] at h
  cases hex : w (mergeSendConfig defCfgBuf.asSendConfig
      ((w (Pubkey.ulnSendConfig p.dstEid p.sender)).map (·.asSendConfig))).executor with
  | none => rw [hex] at h; cases h
  | some executorBuf =>
    rw [hex] at h
    cases hf : fetchAll w SendError.dvnMissing
        ((mergeSendConfig defCfgBuf.asSendConfig
          ((w (Pubkey.ulnSendConfig p.dstEid p.sender)).map (·.asSendConfig))).requiredDvns ++
         (mergeSendConfig defCfgBuf.asSendConfig
          ((w (Pubkey.ulnSendConfig p.dstEid p.sender)).map (·.asSendConfig))).optionalDvns) with
    | error e => rw [hf] at h; cases h
    | ok bufs =>
      rw [hf] at h
      cases hb : buildDvnAccounts w
          ((mergeSendConfig defCfgBuf.asSendConfig
            ((w (Pubkey.ulnSendConfig p.dstEid p.sender)).map (·.asSendConfig))).requiredDvns ++
           (mergeSendConfig defCfgBuf.asSendConfig
            ((w (Pubkey.ulnSendConfig p.dstEid p.sender)).map (·.asSendConfig))).optionalDvns) with
      | error e => rw [hb] at h; cases h
      | ok aw =>
        obtain ⟨dvnAccs, dvnWarns⟩ := aw
        rw [hb] at h
        injection h with h'
        injection h' with h1 h2
        exact ⟨executorBuf, dvnAccs, dvnWarns, rfl, rfl, h1.symm, h2.symm⟩

theorem ulnBranch_executor_missing (w : World) (p : SendAccountsParams) (msgLib : Pubkey)
    (defCfgBuf : AccountInfo) (cfg : SendConfigState)
    (hcfg : cfg = mergeSendConfig defCfgBuf.asSendConfig
      ((w (Pubkey.ulnSendConfig p.dstEid p.sender)).map (·.asSendConfig)))
    (hex : w cfg.executor = none) :
    ulnBranch w p msgLib defCfgBuf = .error (SendError.executorMissing cfg.executor) := by
  subst hcfg
  simp only [ulnBranch, hex]

theorem ulnBranch_dvn_missing (w : World) (p : SendAccountsParams) (msgLib : Pubkey)
    (defCfgBuf executorBuf : AccountInfo) (cfg : SendConfigState)
    (done rest : List Pubkey) (k : Pubkey)
    (hcfg : cfg = mergeSendConfig defCfgBuf.asSendConfig
      ((w (Pubkey.ulnSendConfig p.dstEid p.sender)).map (·.asSendConfig)))
    (hex : w cfg.executor = some executorBuf)
    (hsplit : cfg.requiredDvns ++ cfg.optionalDvns = done ++ k :: rest)
    (hdone : ∀ d ∈ done, (w d).isSome) (hk : w k = none) :
    ulnBranch w p msgLib defCfgBuf = .error (SendError.dvnMissing k) := by
  subst hcfg
  have hf := fetchAll_error_at w SendError.dvnMissing k hk done rest hdone
  simp only [ulnBranch, hex, hsplit, hf]

theorem ulnBranch_total (w : World) (p : SendAccountsParams) (msgLib : Pubkey)
    (defCfgBuf executorBuf : AccountInfo) (cfg : SendConfigState)
    (hcfg : cfg = mergeSendConfig defCfgBuf.asSendConfig
      ((w (Pubkey.ulnSendConfig p.dstEid p.sender)).map (·.asSendConfig)))
    (hex : w cfg.executor = some executorBuf)
    (hall : ∀ d ∈ cfg.requiredDvns ++ cfg.optionalDvns, (w d).isSome) :
    ulnBranch w p msgLib defCfgBuf =
      .ok (endpointAccountsOf p msgLib ++ ulnAccountsOf p ++
        getExecutorAccounts executorBuf.asExecutorPriceFeed
          (priceFeedProgramOf w executorBuf.asExecutorPriceFeed) true ++
        concatMap (dvnGroup w) (cfg.requiredDvns ++ cfg.optionalDvns),
        execWarnsOf w executorBuf ++
        concatMap (dvnWarnsOf w) (cfg.requiredDvns ++ cfg.optionalDvns)) := by
  subst hcfg
  obtain ⟨bufs, hbufs⟩ := fetchAll_total w SendError.dvnMissing _ hall
  have hb := buildDvnAccounts_total w _ hall
  simp only [ulnBranch, hex, hbufs, hb]

theorem effectiveMsgLib_eq (w : World) (p : SendAccountsParams) (aBuf bBuf : AccountInfo)
    (hA : w (Pubkey.sendLibraryConfig p.sender p.dstEid) = some aBuf)
    (hB : w (Pubkey.defaultSendLibraryConfig p.dstEid) = some bBuf) :
    effectiveMsgLib w p = some (msgLibOf aBuf bBuf) := by
  simp only [effectiveMsgLib, hA, hB]

theorem effectiveMsgLib_some (w : World) (p : SendAccountsParams) (lib : Pubkey)
    (h : effectiveMsgLib w p = some lib) :
    ∃ aBuf bBuf, w (Pubkey.sendLibraryConfig p.sender p.dstEid) = some aBuf ∧
      w (Pubkey.defaultSendLibraryConfig p.dstEid) = some bBuf ∧
      lib = msgLibOf aBuf bBuf := by
  unfold effectiveMsgLib at h
  cases hA : w (Pubkey.sendLibraryConfig p.sender p.dstEid) with
  | none => rw [hA] at h; cases h
  | some aBuf =>
    rw [hA] at h
    cases hB : w (Pubkey.defaultSendLibraryConfig p.dstEid) with
    | none => rw [hB] at h; cases h
    | some bBuf =>
      rw [hB] at h
      injection h with h'
      exact ⟨aBuf, bBuf, rfl, rfl, h'.symm⟩

theorem ulnPathConfig_some (w : World) (p : SendAccountsParams) (cfg : SendConfigState)
    (h : ulnPathConfig w p = some cfg) :
    ∃ ulnBuf defCfgBuf, w Pubkey.ulnMessageLib = some ulnBuf ∧
      w (Pubkey.ulnDefaultSendConfig p.dstEid) = some defCfgBuf ∧
      cfg = mergeSendConfig defCfgBuf.asSendConfig
        ((w (Pubkey.ulnSendConfig p.dstEid p.sender)).map (·.asSendConfig)) := by
  unfold ulnPathConfig at h
  cases hU : w Pubkey.ulnMessageLib with
  | none => rw [hU] at h; cases h
  | some ulnBuf =>
    rw [hU] at h
    cases hD : w (Pubkey.ulnDefaultSendConfig p.dstEid) with
    | none => rw [hD] at h; cases h
    | some defCfgBuf =>
      rw [hD] at h
      injection h with h'
      exact ⟨ulnBuf, defCfgBuf, rfl, rfl, h'.symm⟩

theorem ticketIdOf_lt_billion (r : ℚ) (h : r < 1) : ticketIdOf r < 1000000000 := by
  unfold ticketIdOf
  have hmul : r * 1000000000 < 1000000000 := by nlinarith
  have : r * 1000000000 < ((1000000000 : ℤ) : ℚ) := by push_cast; exact hmul
  exact Int.floor_lt.2 this

theorem utf8Len_ascii : ∀ l : List Nat, (∀ u ∈ l, u < 128) → utf8Len l = l.length := by
  intro l
  induction l with
  | nil => intro _; rfl
  | cons u t ih =>
    intro h
    have hu : u < 128 := h u (List.mem_cons_self u t)
    cases t with
    | nil => simp [utf8Len, utf8UnitLen, hu]
    | cons v r =>
      have hcond : ¬ (55296 ≤ u ∧ u < 56320 ∧ 56320 ≤ v ∧ v < 57344) := by
        intro ⟨hc, _⟩; omega
      rw [utf8Len, if_neg hcond, ih (fun x hx => h x (List.mem_cons_of_mem u hx))]
      simp [utf8UnitLen, hu]
      omega

/-!
Claim theorems.
-/

/-- C1 (confirmed): on the Validated path with `R` required and `O`
optional validators after the override merge, the emitted account list
has length `10 + 8 + 4 + 4 * (R + O)` and decomposes, in order and
without any sorting, deduplication or permutation, into the 10
endpoint-level accounts, the 8 path-specific accounts, the 4 relayer
accounts, and one 4-account group per validator, required groups before
optional groups, each in input-array order. -/
theorem c1_validated_account_list_shape
    (w : World) (p : SendAccountsParams) (accs : List AccountMeta)
    (lib : Pubkey) (cfg : SendConfigState)
    (hok : getSendAccounts w p = .ok accs)
    (hlib : effectiveMsgLib w p = some lib)
    (hval : lib ≠ Pubkey.simpleMsgLib)
    (hcfg : ulnPathConfig w p = some cfg) :
    accs.length = 10 + 8 + 4 + 4 * (cfg.requiredDvns.length + cfg.optionalDvns.length) ∧
    ∃ endpointAccs pathAccs relayerAccs,
      endpointAccs.length = 10 ∧ pathAccs.length = 8 ∧ relayerAccs.length = 4 ∧
      accs = endpointAccs ++ pathAccs ++ relayerAccs ++
        (concatMap (dvnGroup w) cfg.requiredDvns ++ concatMap (dvnGroup w) cfg.optionalDvns) ∧
      ∀ k ∈ cfg.requiredDvns ++ cfg.optionalDvns, (dvnGroup w k).length = 4 := by
  obtain ⟨aBuf, bBuf, hA, hB, hlibeq⟩ := effectiveMsgLib_some w p lib hlib
  obtain ⟨ulnBuf, defCfgBuf, hU, hD, hcfgeq⟩ := ulnPathConfig_some w p cfg hcfg
  subst hlibeq
  have hW := getSendAccountsW_uln w p aBuf bBuf ulnBuf defCfgBuf hA hB hval hU hD
  unfold getSendAccounts at hok
  rw [hW] at hok
  cases hbr : ulnBranch w p (msgLibOf aBuf bBuf) defCfgBuf with
  | error e => rw [hbr] at hok; simp [Except.map] at hok
  | ok aw =>
    obtain ⟨accs', warns⟩ := aw
    rw [hbr] at hok
    simp only [Except.map] at hok
    injection hok with h1
    obtain ⟨executorBuf, dvnAccs, dvnWarns, hex, hbuild, haccs, hwarns⟩ :=
      ulnBranch_ok w p _ defCfgBuf cfg accs' warns hcfgeq hbr
    obtain ⟨hdvneq, hwarneq, hsome⟩ := buildDvnAccounts_ok w _ dvnAccs dvnWarns hbuild
    subst h1
    have hgroups : ∀ k ∈ cfg.requiredDvns ++ cfg.optionalDvns, (dvnGroup w k).length = 4 :=
      fun k hk => dvnGroup_length_of_isSome w k (hsome k hk)
    have hDlen : dvnAccs.length = 4 * (cfg.requiredDvns.length + cfg.optionalDvns.length) := by
      rw [hdvneq, concatMap_length_uniform _ 4 _ hgroups, List.length_append]
    constructor
    · rw [haccs]
      simp [List.length_append, hDlen, endpointAccountsOf, ulnAccountsOf, getExecutorAccounts]
      omega
    · refine ⟨endpointAccountsOf p (msgLibOf aBuf bBuf), ulnAccountsOf p,
        getExecutorAccounts executorBuf.asExecutorPriceFeed
          (priceFeedProgramOf w executorBuf.asExecutorPriceFeed) true,
        rfl, rfl, rfl, ?_, hgroups⟩
      rw [haccs, hdvneq, concatMap_append]

/-- C1 witness: the concrete Validated-path world `wOk` (one required,
one optional validator) resolves to the 30-entry list `wOkAccounts`,
and its length is `10 + 8 + 4 + 4 * (1 + 1)`. -/
theorem c1_witness :
    getSendAccounts wOk p0 = .ok wOkAccounts ∧
    wOkAccounts.length = 10 + 8 + 4 + 4 * (1 + 1) :=
  ⟨by decide, by
    have h := c1_validated_account_list_shape wOk p0 wOkAccounts (Pubkey.ext 50) wOkCfg
      (by decide) (by decide) (by decide) (by decide)
    exact h.1⟩

/-- C2 (confirmed): with a per-sender Send Configuration present, the
merged relayer is the default's when the override's relayer is the
all-zero sentinel and the override's otherwise; a non-empty override
validator array replaces the default wholesale after filtering out
sentinel entries, independently for the required and the optional array;
with no per-sender record the default is used unchanged; and this merge
is exactly what a Validated-path resolution computes. -/
theorem c2_override_merge_rule (dflt ovr : SendConfigState) (w : World)
    (p : SendAccountsParams) (ulnBuf defCfgBuf : AccountInfo)
    (hU : w Pubkey.ulnMessageLib = some ulnBuf)
    (hD : w (Pubkey.ulnDefaultSendConfig p.dstEid) = some defCfgBuf) :
    (mergeSendConfig dflt (some ovr)).executor =
      (if ovr.executor = DEFAULT_MESSAGE_LIB then dflt.executor else ovr.executor) ∧
    (mergeSendConfig dflt (some ovr)).requiredDvns =
      (if ovr.requiredDvns = [] then dflt.requiredDvns
       else ovr.requiredDvns.filter (fun d => decide (d ≠ DEFAULT_MESSAGE_LIB))) ∧
    (mergeSendConfig dflt (some ovr)).optionalDvns =
      (if ovr.optionalDvns = [] then dflt.optionalDvns
       else ovr.optionalDvns.filter (fun d => decide (d ≠ DEFAULT_MESSAGE_LIB))) ∧
    mergeSendConfig dflt none = dflt ∧
    ulnPathConfig w p = some (mergeSendConfig defCfgBuf.asSendConfig
      ((w (Pubkey.ulnSendConfig p.dstEid p.sender)).map (·.asSendConfig))) := by
  refine ⟨?_, ?_, ?_, rfl, ?_⟩
  · by_cases h : ovr.executor = DEFAULT_MESSAGE_LIB <;> simp [mergeSendConfig, h]
  · by_cases h : ovr.requiredDvns = [] <;>
      simp [mergeSendConfig, h, List.length_pos, List.isEmpty_iff]
  · by_cases h : ovr.optionalDvns = [] <;>
      simp [mergeSendConfig, h, List.length_pos, List.isEmpty_iff]
  · simp only [ulnPathConfig, hU, hD]

/-- C2 witness: in `wOk` the per-sender record overrides nothing
(sentinel relayer, empty arrays), so the merged configuration is the
destination default `wOkCfg`. -/
theorem c2_witness :
    mergeSendConfig ⟨Pubkey.ext 10, [Pubkey.ext 20], [Pubkey.ext 21]⟩
      (some ⟨Pubkey.systemProgram, [], []⟩) = wOkCfg ∧
    ulnPathConfig wOk p0 = some wOkCfg := by
  have h := c2_override_merge_rule ⟨Pubkey.ext 10, [Pubkey.ext 20], [Pubkey.ext 21]⟩
    ⟨Pubkey.systemProgram, [], []⟩ wOk p0 ulnBufOk defCfgBufOk (by decide) (by decide)
  refine ⟨by decide, ?_⟩
  rw [h.2.2.2.2]
  decide

/-- C3 counterexample: in the successful Validated resolution of `wOk`,
the merged relayer-config address is `ext 10` and the owner of that
fetched account is `ext 77`; yet the emitted relayer-program entry
(index 18) is the constant executor program — not that owner — and the
emitted relayer-config entry (index 19) is the PDA derived from the
constant seed, not the fetched account `ext 10`.  This falsifies C3's
description of the 4 relayer accounts. -/
theorem c3_counterexample :
    getSendAccounts wOk p0 = .ok wOkAccounts ∧
    (ulnPathConfig wOk p0).map SendConfigState.executor = some (Pubkey.ext 10) ∧
    (wOk (Pubkey.ext 10)).map AccountInfo.owner = some (Pubkey.ext 77) ∧
    wOkAccounts[18]? = some ⟨Pubkey.executorProgram, false, false⟩ ∧
    Pubkey.executorProgram ≠ Pubkey.ext 77 ∧
    wOkAccounts[19]? = some ⟨Pubkey.executorConfigPda, false, true⟩ ∧
    Pubkey.executorConfigPda ≠ Pubkey.ext 10 := by decide

/-- C3 (amended): on the Validated path the 4 relayer accounts are the
constant relayer (executor) program id, the relayer-config PDA derived
from the constant seed marked writable — not the owner of, nor the
address of, the fetched relayer-config account — then the fee-oracle's
owning program (system program when the fee oracle is absent) and the
fee-oracle account; each validator's 4 accounts are the owning program of
its fetched config account, the fetched config account itself marked
writable, its fee-oracle's owning program, and its fee-oracle account, in
required-then-optional input order. -/
theorem c3_relayer_validator_account_groups
    (w : World) (p : SendAccountsParams) (accs : List AccountMeta)
    (lib : Pubkey) (cfg : SendConfigState) (execBuf : AccountInfo)
    (hok : getSendAccounts w p = .ok accs)
    (hlib : effectiveMsgLib w p = some lib)
    (hval : lib ≠ Pubkey.simpleMsgLib)
    (hcfg : ulnPathConfig w p = some cfg)
    (hex : w cfg.executor = some execBuf) :
    ∃ endpointAccs pathAccs,
      endpointAccs.length = 10 ∧ pathAccs.length = 8 ∧
      accs = endpointAccs ++ pathAccs ++
        [⟨Pubkey.executorProgram, false, false⟩,
         ⟨Pubkey.executorConfigPda, false, true⟩,
         ⟨priceFeedProgramOf w execBuf.asExecutorPriceFeed, false, false⟩,
         ⟨execBuf.asExecutorPriceFeed, false, false⟩] ++
        concatMap (dvnGroup w) (cfg.requiredDvns ++ cfg.optionalDvns) ∧
      (∀ k cfgBuf, k ∈ cfg.requiredDvns ++ cfg.optionalDvns → w k = some cfgBuf →
        dvnGroup w k = [⟨cfgBuf.owner, false, false⟩, ⟨k, false, true⟩,
          ⟨priceFeedProgramOf w cfgBuf.asDvnPriceFeed, false, false⟩,
          ⟨cfgBuf.asDvnPriceFeed, false, false⟩]) := by
  obtain ⟨aBuf, bBuf, hA, hB, hlibeq⟩ := effectiveMsgLib_some w p lib hlib
  obtain ⟨ulnBuf, defCfgBuf, hU, hD, hcfgeq⟩ := ulnPathConfig_some w p cfg hcfg
  subst hlibeq
  have hW := getSendAccountsW_uln w p aBuf bBuf ulnBuf defCfgBuf hA hB hval hU hD
  unfold getSendAccounts at hok
  rw [hW] at hok
  cases hbr : ulnBranch w p (msgLibOf aBuf bBuf) defCfgBuf with
  | error e => rw [hbr] at hok; simp [Except.map] at hok
  | ok aw =>
    obtain ⟨accs', warns⟩ := aw
    rw [hbr] at hok
    simp only [Except.map] at hok
    injection hok with h1
    obtain ⟨executorBuf, dvnAccs, dvnWarns, hexb, hbuild, haccs, hwarns⟩ :=
      ulnBranch_ok w p _ defCfgBuf cfg accs' warns hcfgeq hbr
    obtain ⟨hdvneq, hwarneq, hsome⟩ := buildDvnAccounts_ok w _ dvnAccs dvnWarns hbuild
    subst h1
    have hsame : executorBuf = execBuf := by
      rw [hex] at hexb; injection hexb with h; exact h.symm
    subst hsame
    refine ⟨endpointAccountsOf p (msgLibOf aBuf bBuf), ulnAccountsOf p, rfl, rfl, ?_, ?_⟩
    · rw [haccs, hdvneq]; rfl
    · intro k cfgBuf hk hwk
      simp [dvnGroup, hwk]

/-- C3 witness: the amended group structure instantiated at `wOk`. -/
theorem c3_witness :
    ∃ endpointAccs pathAccs,
      endpointAccs.length = 10 ∧ pathAccs.length = 8 ∧
      wOkAccounts = endpointAccs ++ pathAccs ++
        [⟨Pubkey.executorProgram, false, false⟩,
         ⟨Pubkey.executorConfigPda, false, true⟩,
         ⟨priceFeedProgramOf wOk execBufOk.asExecutorPriceFeed, false, false⟩,
         ⟨execBufOk.asExecutorPriceFeed, false, false⟩] ++
        concatMap (dvnGroup wOk) (wOkCfg.requiredDvns ++ wOkCfg.optionalDvns) ∧
      (∀ k cfgBuf, k ∈ wOkCfg.requiredDvns ++ wOkCfg.optionalDvns → wOk k = some cfgBuf →
        dvnGroup wOk k = [⟨cfgBuf.owner, false, false⟩, ⟨k, false, true⟩,
          ⟨priceFeedProgramOf wOk cfgBuf.asDvnPriceFeed, false, false⟩,
          ⟨cfgBuf.asDvnPriceFeed, false, false⟩]) :=
  c3_relayer_validator_account_groups wOk p0 wOkAccounts (Pubkey.ext 50) wOkCfg execBufOk
    (by decide) (by decide) (by decide) (by decide) (by decide)

/-- C4 counterexample: a 20-byte buffer (shorter than the fixed fields)
makes `deserializeSendConfig` fail with the runtime out-of-range read
error, not a dedicated `Truncated` value; and a 28-byte buffer whose
optional-array count `5` implies reading 160 bytes past the end does not
fail at all — the clamped slices are accepted by the key constructor and
zero-extended, so the decode silently succeeds with zero-padded keys
substituted, contradicting both the dedicated `ArrayOverrun` error and
the no-default-substituted part of the claim. -/
theorem c4_counterexample :
    deserializeSendConfig (List.replicate 20 0) = .error DecodeErr.rangeError ∧
    DecodeErr.rangeError ≠ DecodeErr.truncated ∧
    (List.replicate 24 0 ++ [5, 0, 0, 0] : List Nat).length = 28 ∧
    28 + 32 * 5 > 28 ∧
    deserializeSendConfig (List.replicate 24 0 ++ [5, 0, 0, 0]) =
      .ok ⟨List.replicate 32 0, [], List.replicate 5 (List.replicate 32 0)⟩ := by decide

/-- C4 (amended): each decoder fails with a runtime out-of-range read
error on every buffer shorter than its fixed-field head.  An array count
whose elements would run past the buffer end never fails inside the
array itself — the clamped slices are accepted by the key constructor
and zero-extended — so when another count field follows (the required
array of the send config, the first arrays of the executor and DVN
configs) the decode fails with an out-of-range read error at that next
count read; but once the last count field of a record has been read
(optional DVNs, executor msglibs, DVN admins), nothing further can fail:
a final-array overrun or a short trailing key field is silently
accepted, the decode succeeding with zero-padded keys.  No dedicated
`Truncated` / `ArrayOverrun` error values exist. -/
theorem c4_decoder_error_behavior :
    (∀ data : List Nat, data.length < 24 →
      deserializeSendConfig data = .error DecodeErr.rangeError) ∧
    (∀ data : List Nat, data.length < 45 →
      deserializeExecutorConfig data = .error DecodeErr.rangeError) ∧
    (∀ data : List Nat, data.length < 17 →
      deserializeDvnConfig data = .error DecodeErr.rangeError) ∧
    (∀ data reqLen, readUInt32LE data 20 = .ok reqLen →
      data.length < 24 + 32 * reqLen + 4 →
      deserializeSendConfig data = .error DecodeErr.rangeError) ∧
    (∀ data allowLen, readUInt32LE data 41 = .ok allowLen →
      data.length < 45 + 32 * allowLen + 4 →
      deserializeExecutorConfig data = .error DecodeErr.rangeError) ∧
    (∀ data signersLen, readUInt32LE data 13 = .ok signersLen →
      data.length < 18 + 64 * signersLen + 4 →
      deserializeDvnConfig data = .error DecodeErr.rangeError) ∧
    (∀ data reqLen optLen, readUInt32LE data 20 = .ok reqLen →
      readUInt32LE data (24 + 32 * reqLen) = .ok optLen →
      ∃ rec, deserializeSendConfig data = .ok rec) ∧
    (∀ data allowLen denyLen adminsLen executorsLen msglibsLen,
      readUInt32LE data 41 = .ok allowLen →
      readUInt32LE data (45 + 32 * allowLen) = .ok denyLen →
      readUInt32LE data (49 + 32 * allowLen + 32 * denyLen) = .ok adminsLen →
      readUInt32LE data (53 + 32 * allowLen + 32 * denyLen + 32 * adminsLen) =
        .ok executorsLen →
      readUInt32LE data
        (57 + 32 * allowLen + 32 * denyLen + 32 * adminsLen + 32 * executorsLen) =
        .ok msglibsLen →
      ∃ k, deserializeExecutorConfig data = .ok k) ∧
    (∀ data signersLen allowLen denyLen msglibsLen adminsLen,
      readUInt32LE data 13 = .ok signersLen →
      readUInt32LE data (18 + 64 * signersLen) = .ok allowLen →
      readUInt32LE data (22 + 64 * signersLen + 32 * allowLen) = .ok denyLen →
      readUInt32LE data (27 + 64 * signersLen + 32 * allowLen + 32 * denyLen) =
        .ok msglibsLen →
      readUInt32LE data
        (31 + 64 * signersLen + 32 * allowLen + 32 * denyLen + 32 * msglibsLen) =
        .ok adminsLen →
      ∃ k, deserializeDvnConfig data = .ok k) := by
  refine ⟨?_, ?_, ?_, ?_, ?_, ?_, ?_, ?_, ?_⟩
  · intro data hlen
    by_cases h17 : 17 < data.length
    · by_cases h18 : 18 < data.length
      · have e17 : readUInt8 data 17 = .ok (byteAt data 17) := by
          unfold readUInt8; rw [if_pos h17]
        have e18 : readUInt8 data 18 = .ok (byteAt data 18) := by
          unfold readUInt8; rw [if_pos h18]
        have e20 : readUInt32LE data 20 = .error DecodeErr.rangeError := by
          unfold readUInt32LE; rw [if_neg (by omega)]
        simp only [deserializeSendConfig, e17, e18, e20]
      · have e17 : readUInt8 data 17 = .ok (byteAt data 17) := by
          unfold readUInt8; rw [if_pos h17]
        have e18 : readUInt8 data 18 = .error DecodeErr.rangeError := by
          unfold readUInt8; rw [if_neg h18]
        simp only [deserializeSendConfig, e17, e18]
    · have e17 : readUInt8 data 17 = .error DecodeErr.rangeError := by
        unfold readUInt8; rw [if_neg h17]
      simp only [deserializeSendConfig, e17]
  · intro data hlen
    have e41 : readUInt32LE data 41 = .error DecodeErr.rangeError := by
      unfold readUInt32LE; rw [if_neg (by omega)]
    simp only [deserializeExecutorConfig, e41]
  · intro data hlen
    have e13 : readUInt32LE data 13 = .error DecodeErr.rangeError := by
      unfold readUInt32LE; rw [if_neg (by omega)]
    simp only [deserializeDvnConfig, e13]
  · intro data reqLen hread hlen
    exact deserializeSendConfig_required_overrun data reqLen hread hlen
  · intro data allowLen hread hlen
    have e2 : readUInt32LE data (45 + 32 * allowLen) = .error DecodeErr.rangeError := by
      unfold readUInt32LE; rw [if_neg (by omega)]
    simp only [deserializeExecutorConfig, hread, e2]
  · intro data signersLen hread hlen
    have e2 : readUInt32LE data (18 + 64 * signersLen) = .error DecodeErr.rangeError := by
      unfold readUInt32LE; rw [if_neg (by omega)]
    simp only [deserializeDvnConfig, hread, e2]
  · intro data reqLen optLen hread1 hread2
    have hlen24 : 24 ≤ data.length := by
      by_contra h'
      unfold readUInt32LE at hread1
      rw [if_neg (by omega)] at hread1
      cases hread1
    have e17 : readUInt8 data 17 = .ok (byteAt data 17) := by
      unfold readUInt8; rw [if_pos (by omega)]
    have e18 : readUInt8 data 18 = .ok (byteAt data 18) := by
      unfold readUInt8; rw [if_pos (by omega)]
    obtain ⟨ks1, hk1⟩ := readPubkeys_total data reqLen 24
    obtain ⟨ks2, hk2⟩ := readPubkeys_total data optLen (24 + 32 * reqLen + 4)
    obtain ⟨k, hk⟩ := newPublicKey_bslice_le data
      (24 + 32 * reqLen + 4 + 32 * optLen + 4)
      (24 + 32 * reqLen + 4 + 32 * optLen + 4 + 32) (by omega)
    refine ⟨⟨k, ks1, ks2⟩, ?_⟩
    simp only [deserializeSendConfig, e17, e18, hread1, hk1, hread2, hk2, hk]
  · intro data allowLen denyLen adminsLen executorsLen msglibsLen h1 h2 h3 h4 h5
    obtain ⟨k, hk⟩ := newPublicKey_bslice_le data
      (64 + 32 * allowLen + 32 * denyLen + 32 * adminsLen + 32 * executorsLen +
        32 * msglibsLen)
      (96 + 32 * allowLen + 32 * denyLen + 32 * adminsLen + 32 * executorsLen +
        32 * msglibsLen) (by omega)
    refine ⟨k, ?_⟩
    simp only [deserializeExecutorConfig, h1, h2, h3, h4, h5, hk]
  · intro data signersLen allowLen denyLen msglibsLen adminsLen h1 h2 h3 h4 h5
    obtain ⟨k, hk⟩ := newPublicKey_bslice_le data
      (35 + 64 * signersLen + 32 * allowLen + 32 * denyLen + 32 * msglibsLen +
        32 * adminsLen)
      (67 + 64 * signersLen + 32 * allowLen + 32 * denyLen + 32 * msglibsLen +
        32 * adminsLen) (by omega)
    refine ⟨k, ?_⟩
    simp only [deserializeDvnConfig, h1, h2, h3, h4, h5, hk]

/-- C4 witness: concrete truncated buffers for each decoder, a concrete
non-final-array overrun failing at the next count read, and a concrete
final-array overrun that silently succeeds. -/
theorem c4_witness :
    deserializeSendConfig (List.replicate 10 0) = .error DecodeErr.rangeError ∧
    deserializeExecutorConfig (List.replicate 44 0) = .error DecodeErr.rangeError ∧
    deserializeDvnConfig (List.replicate 16 0) = .error DecodeErr.rangeError ∧
    deserializeSendConfig (List.replicate 20 0 ++ [1, 0, 0, 0]) =
      .error DecodeErr.rangeError ∧
    (∃ rec, deserializeSendConfig (List.replicate 24 0 ++ [5, 0, 0, 0]) = .ok rec) := by
  have h := c4_decoder_error_behavior
  exact ⟨h.1 _ (by decide), h.2.1 _ (by decide), h.2.2.1 _ (by decide),
    h.2.2.2.1 _ 1 (by decide) (by decide),
    h.2.2.2.2.2.2.1 _ 0 5 (by decide) (by decide)⟩

/-- C5 (confirmed): the effective message library is the per-sender
pointer unless that pointer is the all-zero sentinel, in which case it is
the destination default; and whenever the effective library is the
Direct-path (simple message lib) address, the output is exactly the 10
endpoint-level entries followed by the Direct library account and the
fee-payer account marked writable — 12 entries total. -/
theorem c5_effective_library_and_direct_path
    (w : World) (p : SendAccountsParams) (aBuf bBuf : AccountInfo)
    (hA : w (Pubkey.sendLibraryConfig p.sender p.dstEid) = some aBuf)
    (hB : w (Pubkey.defaultSendLibraryConfig p.dstEid) = some bBuf) :
    effectiveMsgLib w p = some (msgLibOf aBuf bBuf) ∧
    msgLibOf aBuf bBuf =
      (if aBuf.asLibraryPtr = DEFAULT_MESSAGE_LIB then bBuf.asLibraryPtr
       else aBuf.asLibraryPtr) ∧
    (msgLibOf aBuf bBuf = Pubkey.simpleMsgLib →
      getSendAccounts w p = .ok
        [⟨Pubkey.endpointProgram, false, false⟩,
         ⟨p.sender, false, false⟩,
         ⟨Pubkey.simpleMsglibProgram, false, false⟩,
         ⟨Pubkey.sendLibraryConfig p.sender p.dstEid, false, false⟩,
         ⟨Pubkey.defaultSendLibraryConfig p.dstEid, false, false⟩,
         ⟨Pubkey.messageLibInfo Pubkey.simpleMsgLib, false, false⟩,
         ⟨Pubkey.endpointSettings, false, false⟩,
         ⟨Pubkey.nonce p.sender p.dstEid p.receiver, false, true⟩,
         ⟨Pubkey.eventAuthority Pubkey.endpointProgram, false, false⟩,
         ⟨Pubkey.endpointProgram, false, false⟩,
         ⟨Pubkey.simpleMsgLib, false, false⟩,
         ⟨p.payer, false, true⟩]) := by
  refine ⟨effectiveMsgLib_eq w p aBuf bBuf hA hB, rfl, ?_⟩
  intro heq
  unfold getSendAccounts
  rw [getSendAccountsW_direct w p aBuf bBuf hA hB heq, heq]
  simp [Except.map, endpointAccountsOf]

/-- C5 witness: in `wDirect` the per-sender pointer is the sentinel, the
default points at the simple message lib, and resolution emits exactly
the 12-entry Direct-path list. -/
theorem c5_witness :
    effectiveMsgLib wDirect p0 = some Pubkey.simpleMsgLib ∧
    getSendAccounts wDirect p0 = .ok wDirectAccounts := by
  have h := c5_effective_library_and_direct_path wDirect p0 aBufDirect bBufDirect
    (by decide) (by decide)
  exact ⟨h.1, h.2.2 (by decide)⟩

/-- C6 counterexample: in a Validated-path world whose message-library
settings account is absent, resolution fails with the generic
`ULN send library not initialized` error, which names no account —
falsifying the part of C6 that says every such fatal error names the
missing account. -/
theorem c6_counterexample :
    wNoUln Pubkey.ulnMessageLib = none ∧
    effectiveMsgLib wNoUln p0 = some (Pubkey.ext 50) ∧
    Pubkey.ext 50 ≠ Pubkey.simpleMsgLib ∧
    getSendAccountsW wNoUln p0 = .error SendError.ulnMissing ∧
    SendError.namedAccount SendError.ulnMissing = none := by decide

/-- C6 (amended): on the Validated path, a missing message-library
settings account is fatal with a generic error that names no account; a
missing relayer (executor) config or validator (DVN) config is fatal
with an error naming the missing account; and a missing fee-oracle
account is non-fatal — the system-program placeholder is substituted, a
warning is recorded, and resolution still succeeds. -/
theorem c6_missing_account_handling
    (w : World) (p : SendAccountsParams) (aBuf bBuf : AccountInfo)
    (hA : w (Pubkey.sendLibraryConfig p.sender p.dstEid) = some aBuf)
    (hB : w (Pubkey.defaultSendLibraryConfig p.dstEid) = some bBuf)
    (hne : msgLibOf aBuf bBuf ≠ Pubkey.simpleMsgLib) :
    (w Pubkey.ulnMessageLib = none →
      getSendAccountsW w p = .error SendError.ulnMissing ∧
      SendError.namedAccount SendError.ulnMissing = none) ∧
    (∀ ulnBuf defCfgBuf cfg, w Pubkey.ulnMessageLib = some ulnBuf →
      w (Pubkey.ulnDefaultSendConfig p.dstEid) = some defCfgBuf →
      cfg = mergeSendConfig defCfgBuf.asSendConfig
        ((w (Pubkey.ulnSendConfig p.dstEid p.sender)).map (·.asSendConfig)) →
      ((w cfg.executor = none →
          getSendAccountsW w p = .error (SendError.executorMissing cfg.executor) ∧
          SendError.namedAccount (SendError.executorMissing cfg.executor) = some cfg.executor) ∧
       (∀ executorBuf, w cfg.executor = some executorBuf →
          ((∀ done k rest, cfg.requiredDvns ++ cfg.optionalDvns = done ++ k :: rest →
              (∀ d ∈ done, (w d).isSome) → w k = none →
              getSendAccountsW w p = .error (SendError.dvnMissing k) ∧
              SendError.namedAccount (SendError.dvnMissing k) = some k) ∧
           ((∀ d ∈ cfg.requiredDvns ++ cfg.optionalDvns, (w d).isSome) →
             ∃ accs warns, getSendAccountsW w p = .ok (accs, warns) ∧
               (w executorBuf.asExecutorPriceFeed = none →
                 Warn.execPriceFeedMissing executorBuf.asExecutorPriceFeed ∈ warns ∧
                 accs = endpointAccountsOf p (msgLibOf aBuf bBuf) ++ ulnAccountsOf p ++
                   getExecutorAccounts executorBuf.asExecutorPriceFeed
                     Pubkey.systemProgram true ++
                   concatMap (dvnGroup w) (cfg.requiredDvns ++ cfg.optionalDvns)) ∧
               (∀ k cfgBuf, k ∈ cfg.requiredDvns ++ cfg.optionalDvns → w k = some cfgBuf →
                 w cfgBuf.asDvnPriceFeed = none →
                 Warn.dvnPriceFeedMissing cfgBuf.asDvnPriceFeed ∈ warns)))))) := by
  constructor
  · intro hU
    refine ⟨?_, rfl⟩
    simp only [getSendAccountsW, hA, hB, if_neg hne, hU]
  · intro ulnBuf defCfgBuf cfg hU hD hcfg
    have hW := getSendAccountsW_uln w p aBuf bBuf ulnBuf defCfgBuf hA hB hne hU hD
    constructor
    · intro hexn
      refine ⟨?_, rfl⟩
      rw [hW, ulnBranch_executor_missing w p _ defCfgBuf cfg hcfg hexn]
    · intro executorBuf hexec
      constructor
      · intro done k rest hsplit hdone hk
        refine ⟨?_, rfl⟩
        rw [hW, ulnBranch_dvn_missing w p _ defCfgBuf executorBuf cfg done rest k
          hcfg hexec hsplit hdone hk]
      · intro hall
        have htot := ulnBranch_total w p (msgLibOf aBuf bBuf) defCfgBuf executorBuf cfg
          hcfg hexec hall
        refine ⟨_, _, by rw [hW, htot], ?_, ?_⟩
        · intro hfeed
          constructor
          · simp [execWarnsOf, hfeed]
          · simp [priceFeedProgramOf, hfeed]
        · intro k cfgBuf hk hwk hfeedk
          apply List.mem_append_right
          exact mem_concatMap (dvnWarnsOf w) _ hk (by simp [dvnWarnsOf, hwk, hfeedk])

/-- C6 witness: in `wFeedless` (the executor's fee-oracle account
`ext 30` absent, everything else as in `wOk`), resolution still
succeeds, the system-program placeholder stands in the fee-oracle
program slot, and the warnings record the missing feeds. -/
theorem c6_witness :
    ∃ accs warns, getSendAccountsW wFeedless p0 = .ok (accs, warns) ∧
      (wFeedless execBufOk.asExecutorPriceFeed = none →
        Warn.execPriceFeedMissing execBufOk.asExecutorPriceFeed ∈ warns ∧
        accs = endpointAccountsOf p0 (msgLibOf aBufOk bBufOk) ++ ulnAccountsOf p0 ++
          getExecutorAccounts execBufOk.asExecutorPriceFeed
            Pubkey.systemProgram true ++
          concatMap (dvnGroup wFeedless) (wOkCfg.requiredDvns ++ wOkCfg.optionalDvns)) ∧
      (∀ k cfgBuf, k ∈ wOkCfg.requiredDvns ++ wOkCfg.optionalDvns →
        wFeedless k = some cfgBuf →
        wFeedless cfgBuf.asDvnPriceFeed = none →
        Warn.dvnPriceFeedMissing cfgBuf.asDvnPriceFeed ∈ warns) := by
  have h := c6_missing_account_handling wFeedless p0 aBufOk bBufOk
    (by decide) (by decide) (by decide)
  exact (((h.2 ulnBufOk defCfgBufOk wOkCfg (by decide) (by decide) (by decide)).2)
    execBufOk (by decide)).2 (by decide)

/-- C7 counterexample: decoding the scenario buffer exactly as the
scenario lays it out (no 4-byte array-length prefixes), with the
required-validator identifier 32 bytes of `0x01`, does not yield the
expected record — the decoder reads the validator's first 4 bytes as the
required-array length (`16843009`), walks that many clamped zero-padded
slices without error, and fails with an out-of-range read at the
optional-array length. -/
theorem c7_counterexample :
    deserializeSendConfig c7ScenarioBuf ≠
      Except.ok ⟨List.replicate 32 170, [List.replicate 32 1], []⟩ ∧
    deserializeSendConfig c7ScenarioBuf = .error DecodeErr.rangeError := by
  have h20 : readUInt32LE c7ScenarioBuf 20 = .ok 16843009 := by decide
  have hres := deserializeSendConfig_required_overrun c7ScenarioBuf 16843009 h20
    (by decide)
  refine ⟨?_, hres⟩
  rw [hres]
  simp

/-- C7 (amended): once the 4-byte little-endian array-length prefixes
required by the layout are inserted (`1` before the required array, `0`
before the optional array), decoding the scenario buffer yields exactly
`{requiredValidators: [V], optionalValidators: [], relayer: 0xAA * 32}`
for every 32-byte validator identifier `V`. -/
theorem c7_decode_scenario_with_length_prefixes (V : List Nat) (hV : V.length = 32) :
    deserializeSendConfig (c7AmendedBuf V) = .ok ⟨c7Relayer, [V], []⟩ := by
  have hlen : (c7AmendedBuf V).length = 96 := by
    simp [c7AmendedBuf, c7Head, c7Mid, c7Relayer, hV]
  have hheadlen : c7Head.length = 24 := by decide
  have hb : ∀ n, n < 24 → byteAt (c7AmendedBuf V) n = byteAt c7Head n := by
    intro n hn
    exact byteAt_append_left _ _ n (by rw [hheadlen]; exact hn)
  have hassoc : c7AmendedBuf V = (c7Head ++ V) ++ (c7Mid ++ c7Relayer) := by
    simp [c7AmendedBuf, List.append_assoc]
  have hprelen : (c7Head ++ V).length = 56 := by
    simp [hheadlen, hV]
  have hb2 : ∀ n, 56 ≤ n →
      byteAt (c7AmendedBuf V) n = byteAt (c7Mid ++ c7Relayer) (n - 56) := by
    intro n hn
    rw [hassoc]
    rw [byteAt_append_right _ _ n (by rw [hprelen]; exact hn), hprelen]
  have h17 : readUInt8 (c7AmendedBuf V) 17 = .ok 1 := by
    unfold readUInt8
    rw [if_pos (by rw [hlen]; norm_num), hb 17 (by norm_num)]
    decide
  have h18 : readUInt8 (c7AmendedBuf V) 18 = .ok 0 := by
    unfold readUInt8
    rw [if_pos (by rw [hlen]; norm_num), hb 18 (by norm_num)]
    decide
  have h20 : readUInt32LE (c7AmendedBuf V) 20 = .ok 1 := by
    unfold readUInt32LE
    rw [if_pos (by rw [hlen]; norm_num),
      hb 20 (by norm_num), hb 21 (by norm_num), hb 22 (by norm_num), hb 23 (by norm_num)]
    decide
  have hslice : bslice (c7AmendedBuf V) 24 (24 + 32) = V := by
    have := bslice_mid c7Head V (c7Mid ++ c7Relayer)
    rw [hheadlen, hV] at this
    exact this
  have hkeys : readPubkeys (c7AmendedBuf V) 24 1 = .ok [V] := by
    simp only [readPubkeys]
    have hk : newPublicKey (bslice (c7AmendedBuf V) 24 (24 + 32)) = .ok V := by
      rw [hslice]
      exact newPublicKey_exact V hV
    simp only [hk]
  have h56 : readUInt32LE (c7AmendedBuf V) (24 + 32 * 1) = .ok 0 := by
    unfold readUInt32LE
    rw [if_pos (by rw [hlen]; norm_num)]
    rw [show 24 + 32 * 1 = 56 by norm_num]
    rw [hb2 56 (by norm_num), hb2 57 (by norm_num), hb2 58 (by norm_num),
      hb2 59 (by norm_num)]
    decide
  have hexecslice : bslice (c7AmendedBuf V) (24 + 32 * 1 + 4 + 32 * 0 + 4)
      (24 + 32 * 1 + 4 + 32 * 0 + 4 + 32) = c7Relayer := by
    have h2 : c7AmendedBuf V = ((c7Head ++ V) ++ c7Mid) ++ (c7Relayer ++ []) := by
      simp [c7AmendedBuf, List.append_assoc]
    have h3 : ((c7Head ++ V) ++ c7Mid).length = 64 := by
      simp [hheadlen, hV, c7Mid]
    have := bslice_mid ((c7Head ++ V) ++ c7Mid) c7Relayer []
    rw [h3, show (c7Relayer : List Nat).length = 32 by decide] at this
    rw [show 24 + 32 * 1 + 4 + 32 * 0 + 4 = 64 by norm_num,
        show 24 + 32 * 1 + 4 + 32 * 0 + 4 + 32 = 64 + 32 by norm_num, h2]
    exact this
  have hexec : newPublicKey (bslice (c7AmendedBuf V) (24 + 32 * 1 + 4 + 32 * 0 + 4)
      (24 + 32 * 1 + 4 + 32 * 0 + 4 + 32)) = .ok c7Relayer := by
    rw [hexecslice]
    decide
  have hopt : readPubkeys (c7AmendedBuf V) (24 + 32 * 1 + 4) 0 = .ok [] := rfl
  simp only [deserializeSendConfig, h17, h18, h20, hkeys, h56, hopt, hexec]

/-- C7 witness: the amended scenario decode at the identifier 32 bytes
of `0x07`. -/
theorem c7_witness :
    (List.replicate 32 7 : List Nat).length = 32 ∧
    deserializeSendConfig (c7AmendedBuf (List.replicate 32 7)) =
      .ok ⟨c7Relayer, [List.replicate 32 7], []⟩ :=
  ⟨by decide, c7_decode_scenario_with_length_prefixes (List.replicate 32 7) (by decide)⟩

/-- C8 counterexample: no outcome of the random source can produce the
ticket id `2^64 - 1`; the generated id never reaches the full unsigned
64-bit range, falsifying the uniform-64-bit claim. -/
theorem c8_counterexample :
    ¬ ∃ r : ℚ, 0 ≤ r ∧ r < 1 ∧ ticketIdOf r = 2 ^ 64 - 1 := by
  rintro ⟨r, _h0, h1, he⟩
  have h2 := ticketIdOf_lt_billion r h1
  rw [he] at h2
  norm_num at h2

/-- C8 (amended): for every outcome of the random source the ticket id
is a nonnegative integer strictly below `10^9` — far short of the
unsigned 64-bit range. -/
theorem c8_ticket_id_range (r : ℚ) (h0 : 0 ≤ r) (h1 : r < 1) :
    0 ≤ ticketIdOf r ∧ ticketIdOf r < 1000000000 := by
  constructor
  · unfold ticketIdOf
    apply Int.floor_nonneg.2
    positivity
  · exact ticketIdOf_lt_billion r h1

/-- C8 witness: the bound instantiated at the outcome `1/2`. -/
theorem c8_witness :
    (0 : ℚ) ≤ 1 / 2 ∧ (1 / 2 : ℚ) < 1 ∧
      (0 ≤ ticketIdOf (1 / 2) ∧ ticketIdOf (1 / 2) < 1000000000) :=
  ⟨by norm_num, by norm_num, c8_ticket_id_range (1 / 2) (by norm_num) (by norm_num)⟩

/-- C9 counterexample: a token name of 17 copies of `£` (U+00A3, one
UTF-16 code unit, two UTF-8 bytes) passes `.slice(0, 32)` unshortened
and serialises to 34 bytes, over the claimed 32-byte limit; similarly a
5-character symbol reaches 10 bytes, over the 8-byte limit. -/
theorem c9_counterexample :
    utf8Len (bridgeTokenName (List.replicate 17 163)) = 34 ∧
    ¬ utf8Len (bridgeTokenName (List.replicate 17 163)) ≤ 32 ∧
    utf8Len (bridgeTokenSymbol (List.replicate 5 163)) = 10 ∧
    ¬ utf8Len (bridgeTokenSymbol (List.replicate 5 163)) ≤ 8 := by decide

/-- C9 (amended): the bridge payload truncates `token_name` to at most
32 UTF-16 code units and `token_symbol` to at most 8; when every
character is single-byte (ASCII) this bounds the UTF-8 byte length by
32 and 8 respectively, but the byte-length bound does not hold for
multi-byte characters. -/
theorem c9_token_field_truncation (name symbol : List Nat) :
    (bridgeTokenName name).length ≤ 32 ∧ (bridgeTokenSymbol symbol).length ≤ 8 ∧
    ((∀ u ∈ name, u < 128) → utf8Len (bridgeTokenName name) ≤ 32) ∧
    ((∀ u ∈ symbol, u < 128) → utf8Len (bridgeTokenSymbol symbol) ≤ 8) := by
  refine ⟨?_, ?_, ?_, ?_⟩
  · simp [bridgeTokenName, jsSliceUnits]
  · simp [bridgeTokenSymbol, jsSliceUnits]
  · intro h
    unfold bridgeTokenName jsSliceUnits
    rw [utf8Len_ascii _ (fun u hu => h u (List.take_subset _ _ hu))]
    simp
  · intro h
    unfold bridgeTokenSymbol jsSliceUnits
    rw [utf8Len_ascii _ (fun u hu => h u (List.take_subset _ _ hu))]
    simp

/-- C9 witness: the truncation bounds instantiated at a 40-character
ASCII name and a 3-character ASCII symbol. -/
theorem c9_witness :
    (bridgeTokenName (List.replicate 40 65)).length ≤ 32 ∧
    (bridgeTokenSymbol (List.replicate 3 66)).length ≤ 8 ∧
    utf8Len (bridgeTokenName (List.replicate 40 65)) ≤ 32 ∧
    utf8Len (bridgeTokenSymbol (List.replicate 3 66)) ≤ 8 := by
  have h := c9_token_field_truncation (List.replicate 40 65) (List.replicate 3 66)
  exact ⟨h.1, h.2.1, h.2.2.1 (by decide), h.2.2.2 (by decide)⟩

/-- C10 (confirmed): whenever `getSendAccounts` succeeds,
`getQuoteAccounts` succeeds with a list of the same length carrying, at
every position, the same account identifier and the same `isSigner`
flag, and with every `isWritable` flag cleared. -/
theorem c10_quote_equals_send_readonly
    (w : World) (p : SendAccountsParams) (accs : List AccountMeta)
    (hok : getSendAccounts w p = .ok accs) :
    ∃ qaccs, getQuoteAccounts w p = .ok qaccs ∧
      qaccs.length = accs.length ∧
      (∀ i : Nat, (qaccs[i]?).map AccountMeta.pubkey = (accs[i]?).map AccountMeta.pubkey) ∧
      (∀ i : Nat, (qaccs[i]?).map AccountMeta.isSigner = (accs[i]?).map AccountMeta.isSigner) ∧
      (∀ a ∈ qaccs, a.isWritable = false) := by
  refine ⟨accs.map (fun a => ⟨a.pubkey, a.isSigner, false⟩), ?_, by simp, ?_, ?_, ?_⟩
  · unfold getQuoteAccounts
    rw [hok]
    rfl
  · intro i
    rw [List.getElem?_map]
    cases accs[i]? <;> rfl
  · intro i
    rw [List.getElem?_map]
    cases accs[i]? <;> rfl
  · intro a ha
    obtain ⟨b, hb, rfl⟩ := List.mem_map.1 ha
    rfl

/-- C10 witness: the quote list of `wDirect` agrees with its send list
position by position, with writability cleared. -/
theorem c10_witness :
    ∃ qaccs, getQuoteAccounts wDirect p0 = .ok qaccs ∧
      qaccs.length = wDirectAccounts.length ∧
      (∀ i : Nat, (qaccs[i]?).map AccountMeta.pubkey =
        (wDirectAccounts[i]?).map AccountMeta.pubkey) ∧
      (∀ i : Nat, (qaccs[i]?).map AccountMeta.isSigner =
        (wDirectAccounts[i]?).map AccountMeta.isSigner) ∧
      (∀ a ∈ qaccs, a.isWritable = false) :=
  c10_quote_equals_send_readonly wDirect p0 wDirectAccounts (by decide)

end Zaunch
